import Mathlib

/-!
Verification of the ForgeTube script-generation core: the JSON extraction
cascade `_extract_json` (identical in `src/diffusion/scripts/scriptoll.py`
lines 166-177 and `src/diffusion/scripts/wer.py` lines 65-79), the schema
validator `_validate_script` (`wer.py` lines 82-105), and the prompt
construction of `generate_script` in both variants.

The Python code delegates JSON parsing and serialization to the standard
library (`json.loads` / `json.dumps`).  Those collaborators are embedded
here as executable functions `loads` and `serializeVal` over a `Json`
value type.  Numbers are modelled as exact scaled decimals `m / 10 ^ e`
(Python float rounding beyond 15 significant digits is not modelled, nor
is exponent notation such as `1e5`); `serializeVal` models `json.dumps`
with its default separators and `ensure_ascii=False` (non-ASCII characters
are emitted verbatim rather than `\uXXXX`-escaped; both forms parse back
to the same value).  Duplicate-key objects, which a Python dict cannot
even represent, are kept as-is by the parser; dictionary lookup takes the
last binding, matching `json.loads` semantics on the keys it keeps.

Arrays and objects are given their own mutual inductives (`JsonArr`,
`JsonObj`) rather than `List` fields so that every function below is
compiled by structural recursion and evaluates inside the kernel; `jarr`
and `jobj` convert ordinary lists for readable statements.
-/

mutual
/-- A JSON value.  `num m e` denotes the exact decimal `m / 10 ^ e`. -/
inductive Json where
  | null : Json
  | bool (b : Bool) : Json
  | num (m : Int) (e : Nat) : Json
  | str (s : String) : Json
  | arr (xs : JsonArr) : Json
  | obj (kvs : JsonObj) : Json

/-- The elements of a JSON array. -/
inductive JsonArr where
  | nil : JsonArr
  | cons (head : Json) (tail : JsonArr) : JsonArr

/-- The key/value members of a JSON object, in document order. -/
inductive JsonObj where
  | nil : JsonObj
  | cons (key : String) (val : Json) (tail : JsonObj) : JsonObj
end

def jarr : List Json → JsonArr
  | [] => .nil
  | x :: xs => .cons x (jarr xs)

def jobj : List (String × Json) → JsonObj
  | [] => .nil
  | (k, v) :: kvs => .cons k v (jobj kvs)

def JsonArr.toList : JsonArr → List Json
  | .nil => []
  | .cons x xs => x :: xs.toList

/-- The keys of an object, each as a JSON string (what Python iteration
over a dict yields). -/
def JsonObj.keyStrs : JsonObj → List Json
  | .nil => []
  | .cons k _ kvs => .str k :: kvs.keyStrs

/-- JSON whitespace, as accepted between tokens by `json.loads`. -/
def isWs (c : Char) : Bool := c = ' ' || c = '\t' || c = '\n' || c = '\r'

def skipWs (cs : List Char) : List Char := cs.dropWhile isWs

/-- ASCII decimal digit test. -/
def isDigitCh (c : Char) : Bool := 48 ≤ c.toNat && c.toNat ≤ 57

def digitVal (c : Char) : Nat := c.toNat - 48

/-- Numeric value of a list of decimal digit characters. -/
def digitsVal (ds : List Char) : Nat := ds.foldl (fun acc c => acc * 10 + digitVal c) 0

def hexVal (c : Char) : Option Nat :=
  if 48 ≤ c.toNat && c.toNat ≤ 57 then some (c.toNat - 48)
  else if 97 ≤ c.toNat && c.toNat ≤ 102 then some (c.toNat - 87)
  else if 65 ≤ c.toNat && c.toNat ≤ 70 then some (c.toNat - 55)
  else none

/-- The short escapes recognized after a backslash inside a JSON string. -/
def escCharInv (e : Char) : Option Char :=
  if e = '"' then some '"'
  else if e = '\\' then some '\\'
  else if e = '/' then some '/'
  else if e = 'b' then some (Char.ofNat 8)
  else if e = 'f' then some (Char.ofNat 12)
  else if e = 'n' then some '\n'
  else if e = 'r' then some '\r'
  else if e = 't' then some '\t'
  else none

/-- Body of a JSON string literal after the opening quote: unescapes up to
the closing quote, rejecting raw control characters as `json.loads` does. -/
def parseStringBody : List Char → Option (List Char × List Char)
  | [] => none
  | c :: rest =>
    if c = '"' then some ([], rest)
    else if c = '\\' then
      match rest with
      | [] => none
      | e :: rest2 =>
        if e = 'u' then
          match rest2 with
          | h1 :: h2 :: h3 :: h4 :: rest3 =>
            match hexVal h1, hexVal h2, hexVal h3, hexVal h4 with
            | some d1, some d2, some d3, some d4 =>
              (parseStringBody rest3).map
                (fun p => (Char.ofNat (((d1 * 16 + d2) * 16 + d3) * 16 + d4) :: p.1, p.2))
            | _, _, _, _ => none
          | _ => none
        else
          match escCharInv e with
          | some ec => (parseStringBody rest2).map (fun p => (ec :: p.1, p.2))
          | none => none
    else if c.toNat < 32 then none
    else (parseStringBody rest).map (fun p => (c :: p.1, p.2))

/-- Unsigned decimal number token: digits with an optional fraction part.
Returns the scaled mantissa, the number of fraction digits, and the rest. -/
def parseNumAbs (cs : List Char) : Option (Nat × Nat × List Char) :=
  if (cs.takeWhile isDigitCh).isEmpty then none
  else
    match cs.dropWhile isDigitCh with
    | '.' :: r2 =>
      if (r2.takeWhile isDigitCh).isEmpty then none
      else some (digitsVal (cs.takeWhile isDigitCh ++ r2.takeWhile isDigitCh),
        (r2.takeWhile isDigitCh).length, r2.dropWhile isDigitCh)
    | r => some (digitsVal (cs.takeWhile isDigitCh), 0, r)

def parseNumTok (cs : List Char) : Option (Json × List Char) :=
  match cs with
  | '-' :: rest => (parseNumAbs rest).map (fun p => (Json.num (-(p.1 : Int)) p.2.1, p.2.2))
  | _ => (parseNumAbs cs).map (fun p => (Json.num (p.1 : Int) p.2.1, p.2.2))

mutual
/-- One JSON value, fuel-bounded; models the recursive descent of
`json.loads`.  Returns the value and the unconsumed remainder. -/
def parseVal : Nat → List Char → Option (Json × List Char)
  | 0, _ => none
  | fuel + 1, cs =>
    match skipWs cs with
    | [] => none
    | c :: rest =>
      if c = 'n' then
        match rest with
        | 'u' :: 'l' :: 'l' :: r => some (.null, r)
        | _ => none
      else if c = 't' then
        match rest with
        | 'r' :: 'u' :: 'e' :: r => some (.bool true, r)
        | _ => none
      else if c = 'f' then
        match rest with
        | 'a' :: 'l' :: 's' :: 'e' :: r => some (.bool false, r)
        | _ => none
      else if c = '"' then
        (parseStringBody rest).map (fun p => (.str (String.mk p.1), p.2))
      else if c = '[' then
        match skipWs rest with
        | ']' :: r2 => some (.arr .nil, r2)
        | cs2 => (parseElems fuel cs2).map (fun p => (.arr p.1, p.2))
      else if c = '{' then
        match skipWs rest with
        | '}' :: r2 => some (.obj .nil, r2)
        | cs2 => (parseMembers fuel cs2).map (fun p => (.obj p.1, p.2))
      else parseNumTok (c :: rest)

/-- Comma-separated array elements up to the closing bracket. -/
def parseElems : Nat → List Char → Option (JsonArr × List Char)
  | 0, _ => none
  | fuel + 1, cs =>
    match parseVal fuel cs with
    | none => none
    | some (v, r) =>
      match skipWs r with
      | ',' :: r2 => (parseElems fuel (skipWs r2)).map (fun p => (JsonArr.cons v p.1, p.2))
      | ']' :: r2 => some (JsonArr.cons v .nil, r2)
      | _ => none

/-- Comma-separated `"key": value` members up to the closing brace. -/
def parseMembers : Nat → List Char → Option (JsonObj × List Char)
  | 0, _ => none
  | fuel + 1, cs =>
    match cs with
    | '"' :: rest =>
      match parseStringBody rest with
      | none => none
      | some (k, r) =>
        match skipWs r with
        | ':' :: r2 =>
          match parseVal fuel (skipWs r2) with
          | none => none
          | some (v, r3) =>
            match skipWs r3 with
            | ',' :: r4 => (parseMembers fuel (skipWs r4)).map
                (fun p => (JsonObj.cons (String.mk k) v p.1, p.2))
            | '}' :: r4 => some (JsonObj.cons (String.mk k) v .nil, r4)
            | _ => none
        | _ => none
    | _ => none
end

/-- Model of `json.loads`: parse one value, allow surrounding whitespace,
require the whole input to be consumed.  `none` models a raised
`json.JSONDecodeError`. -/
def loads (cs : List Char) : Option Json :=
  match parseVal (cs.length + 1) cs with
  | some (v, rest) => if skipWs rest = [] then some v else none
  | none => none

def digitChar : Nat → Char
  | 0 => '0' | 1 => '1' | 2 => '2' | 3 => '3' | 4 => '4'
  | 5 => '5' | 6 => '6' | 7 => '7' | 8 => '8' | 9 => '9'
  | _ => '0'

/-- Decimal digits of `n` (big-endian), fuel-bounded so that it evaluates
by structural recursion; `natDigits` supplies sufficient fuel. -/
def natDigitsAux : Nat → Nat → List Char
  | 0, _ => []
  | fuel + 1, n =>
    if n < 10 then [digitChar n]
    else natDigitsAux fuel (n / 10) ++ [digitChar (n % 10)]

/-- Decimal digits of `n`, no leading zeros (except `"0"` itself). -/
def natDigits (n : Nat) : List Char := natDigitsAux (n + 1) n

def hexDigitCh : Nat → Char
  | 0 => '0' | 1 => '1' | 2 => '2' | 3 => '3' | 4 => '4'
  | 5 => '5' | 6 => '6' | 7 => '7' | 8 => '8' | 9 => '9'
  | 10 => 'a' | 11 => 'b' | 12 => 'c' | 13 => 'd' | 14 => 'e' | 15 => 'f'
  | _ => '0'

/-- How `json.dumps` escapes one character inside a string literal
(with `ensure_ascii=False`; see the module comment). -/
def escapeChar (c : Char) : List Char :=
  if c = '"' then ['\\', '"']
  else if c = '\\' then ['\\', '\\']
  else if c = '\n' then ['\\', 'n']
  else if c = '\r' then ['\\', 'r']
  else if c = '\t' then ['\\', 't']
  else if c = Char.ofNat 8 then ['\\', 'b']
  else if c = Char.ofNat 12 then ['\\', 'f']
  else if c.toNat < 32 then ['\\', 'u', '0', '0', hexDigitCh (c.toNat / 16), hexDigitCh (c.toNat % 16)]
  else [c]

def escList : List Char → List Char
  | [] => []
  | c :: s => escapeChar c ++ escList s

/-- Serialization of the nonnegative decimal `n / 10 ^ e`. -/
def serNumNat (n : Nat) (e : Nat) : List Char :=
  if e = 0 then natDigits n
  else natDigits (n / 10 ^ e) ++ '.' ::
    (List.replicate (e - (natDigits (n % 10 ^ e)).length) '0' ++ natDigits (n % 10 ^ e))

def serNum (m : Int) (e : Nat) : List Char :=
  if m < 0 then '-' :: serNumNat m.natAbs e else serNumNat m.natAbs e

mutual
/-- Model of `json.dumps` with its default separators `", "` and `": "`. -/
def serializeVal : Json → List Char
  | .null => ("null").data
  | .bool true => ("true").data
  | .bool false => ("false").data
  | .num m e => serNum m e
  | .str s => '"' :: escList s.data ++ ['"']
  | .arr .nil => ['[', ']']
  | .arr (.cons x xs) => '[' :: (serializeVal x ++ serArrTail xs) ++ [']']
  | .obj .nil => ['{', '}']
  | .obj (.cons k v kvs) =>
    '{' :: (('"' :: escList k.data ++ '"' :: ':' :: ' ' :: serializeVal v) ++ serObjTail kvs) ++ ['}']
  termination_by structural m => m

def serArrTail : JsonArr → List Char
  | .nil => []
  | .cons x xs => ',' :: ' ' :: serializeVal x ++ serArrTail xs
  termination_by structural xs => xs

def serObjTail : JsonObj → List Char
  | .nil => []
  | .cons k v kvs => ',' :: ' ' :: ('"' :: escList k.data ++ '"' :: ':' :: ' ' :: serializeVal v) ++ serObjTail kvs
  termination_by structural kvs => kvs
end

/-- One `"key": value` member as serialized by `json.dumps`. -/
def serMemberChars (k : String) (v : Json) : List Char :=
  '"' :: escList k.data ++ '"' :: ':' :: ' ' :: serializeVal v

mutual
/-- Fuel bound sufficient for `parseVal` to reconstruct a serialized value. -/
def Json.size : Json → Nat
  | .null => 1
  | .bool _ => 1
  | .num _ _ => 1
  | .str _ => 1
  | .arr xs => 1 + sizeArr xs
  | .obj kvs => 1 + sizeObj kvs

def sizeArr : JsonArr → Nat
  | .nil => 0
  | .cons x xs => 1 + Json.size x + sizeArr xs

def sizeObj : JsonObj → Nat
  | .nil => 0
  | .cons _ v kvs => 1 + Json.size v + sizeObj kvs
end

def serialize (m : Json) : String := String.mk (serializeVal m)

/-! ## The regex fallbacks of `_extract_json`

The Python code uses two `re.search` patterns (with `re.DOTALL`):
the markdown fence pattern whose group is the interior of the first
viable fenced block, and the greedy brace pattern spanning from the
first open brace to the last close brace of the text. -/

def beginsWith : List Char → List Char → Bool
  | [], _ => true
  | _ :: _, [] => false
  | p :: ps, c :: cs => p = c && beginsWith ps cs

def openMark : List Char := ("```json" ++ "\n").data

def closeMark : List Char := ("\n" ++ "```").data

/-- Interior before the first occurrence of the closing fence marker;
the lazy group of the fence regex. -/
def findClose : List Char → Option (List Char)
  | [] => none
  | c :: rest =>
    if beginsWith closeMark (c :: rest) then some []
    else (findClose rest).map (fun l => c :: l)

/-- `re.search` of the fence pattern: the leftmost position where the
opening marker is followed (lazily) by a closing marker wins; a position
whose opening has no later closing is skipped, as regex search would. -/
def findFenced : List Char → Option (List Char)
  | [] => none
  | c :: rest =>
    if beginsWith openMark (c :: rest) then
      match findClose ((c :: rest).drop 8) with
      | some interior => some interior
      | none => findFenced rest
    else findFenced rest

/-- Longest prefix ending in a close brace, or `none` when `'\x7d'` never
occurs: the greedy `.*` of the brace pattern runs to the last close brace. -/
def cutAfterLastBrace (cs : List Char) : Option (List Char) :=
  match cs.reverse.dropWhile (fun c => !(c = '}')) with
  | [] => none
  | c :: r => some ((c :: r).reverse)

/-- `re.search` of the greedy brace pattern: from the first open brace
that is followed by some close brace, up to the last close brace. -/
def findBraceSpan : List Char → Option (List Char)
  | [] => none
  | c :: rest =>
    if c = '{' then
      match cutAfterLastBrace (c :: rest) with
      | some span => some span
      | none => none
    else findBraceSpan rest

/-! ## `_extract_json` (scriptoll.py 166-177 / wer.py 65-79, identical)

```python
def _extract_json(self, raw_text: str) -> Dict:
    try:
        return json.loads(raw_text)
    except json.JSONDecodeError:
        try:
            json_match = re.search(PATTERN_FENCE, raw_text, re.DOTALL)
            if json_match:
                return json.loads(json_match.group(1))
            json_match = re.search(PATTERN_BRACE, raw_text, re.DOTALL)
            return json.loads(json_match.group()) if json_match else \x7b\x7d
        except Exception as e:
            raise ValueError(f"JSON extraction failed: ...")
```

A parse failure of a located candidate (fenced interior or brace span)
raises inside the inner `try` and is re-raised as the `ValueError`; the
wrapped submessage is not modelled, only the fixed message stem. -/

def extractErr : String := "JSON extraction failed"

def extractJsonImpl (raw : String) : Except String Json :=
  match loads raw.data with
  | some v => .ok v
  | none =>
    match findFenced raw.data with
    | some interior =>
      match loads interior with
      | some v => .ok v
      | none => .error extractErr
    | none =>
      match findBraceSpan raw.data with
      | some span =>
        match loads span with
        | some v => .ok v
        | none => .error extractErr
      | none => .ok (Json.obj .nil)

/-- `VideoScriptGenerator._extract_json` of `scriptoll.py` (lines 166-177). -/
def extract_json_scriptoll (raw : String) : Except String Json := extractJsonImpl raw

/-- `VideoScriptGenerator._extract_json` of `wer.py` (lines 65-79); the two
variants are character-for-character identical. -/
def extract_json_wer (raw : String) : Except String Json := extractJsonImpl raw

/-! ## `_validate_script` (wer.py 82-105)

Python values are dynamically typed, so the loops can be handed values of
any shape.  The model follows Python semantics for the shapes a JSON
document can produce: iteration over a list yields its items, over a dict
its keys, over a string its one-character strings; `x not in y` is key
membership for a dict, substring for a string, element membership for a
list, and a `TypeError` otherwise; subscripting with a string key only
works on a dict.  Numeric comparison uses exact decimal values (a Python
`bool` compares as 0 or 1).  Error values carry the exact f-string
message; `typeError` stands for any raised non-`ValueError`. -/

inductive Verr where
  | valueError (msg : String) : Verr
  | typeError : Verr

/-- Python dict lookup for an assoc list (later bindings shadow earlier). -/
def pyGet : JsonObj → String → Option Json
  | .nil, _ => none
  | .cons k v rest, key =>
    match pyGet rest key with
    | some r => some r
    | none => if k = key then some v else none

/-- Substring test, modelling Python `needle in hay` on strings. -/
def containsSub (needle : List Char) (hay : List Char) : Bool :=
  match hay with
  | [] => beginsWith needle []
  | _ :: t => beginsWith needle hay || containsSub needle t

/-- Python `field in item` for a string field. -/
def pyIn (field : String) : Json → Option Bool
  | .obj kvs => some (pyGet kvs field).isSome
  | .str s => some (containsSub field.data s.data)
  | .arr xs => some (xs.toList.any (fun x => match x with | .str t => t = field | _ => false))
  | _ => none

/-- Python `for item in v`: the sequence of iterates, `none` on TypeError. -/
def pyIter : Json → Option (List Json)
  | .arr xs => some xs.toList
  | .str s => some (s.data.map (fun c => .str (String.mk [c])))
  | .obj kvs => some kvs.keyStrs
  | _ => none

/-- Python `item[field]` for a string key: only dicts support it. -/
def pyIndex : Json → String → Option Json
  | .obj kvs, f => pyGet kvs f
  | _, _ => none

/-- The value a Python chained numeric comparison sees, `none` when the
comparison itself raises a TypeError. -/
def asDecimal : Json → Option (Int × Nat)
  | .num m e => some (m, e)
  | .bool b => some (if b then 1 else 0, 0)
  | _ => none

/-- Exact comparison of scaled decimals `a.1 / 10 ^ a.2 ≤ b.1 / 10 ^ b.2`. -/
def decimalLe (a b : Int × Nat) : Bool := a.1 * (10 : Int) ^ b.2 ≤ b.1 * (10 : Int) ^ a.2

def audioFields : List String :=
  ["timestamp", "text", "speaker", "speed", "pitch", "emotion"]

def visualFields : List String :=
  ["timestamp", "prompt", "negative_prompt", "style",
   "guidance_scale", "steps", "seed", "width", "height"]

/-- The inner `for field in fields` loop: first missing field raises. -/
def checkFieldsLoop : List String → Json → String → Except Verr Unit
  | [], _, _ => .ok ()
  | f :: fs, item, sect =>
    match pyIn f item with
    | none => .error .typeError
    | some true => checkFieldsLoop fs item sect
    | some false =>
      .error (.valueError ("Missing field \x27" ++ f ++ "\x27 in " ++ sect))

/-- The per-item range check after the field loop:
`if not 0.9 <= item[\x27speed\x27] <= 1.1` for the audio section,
`if not 11.0 <= item[\x27guidance_scale\x27] <= 14.0` for the visual one. -/
def rangeCheck (sect : String) (item : Json) : Except Verr Unit :=
  if sect = "audio_script" then
    match pyIndex item "speed" with
    | none => .error .typeError
    | some v =>
      match asDecimal v with
      | none => .error .typeError
      | some d =>
        if decimalLe (9, 1) d && decimalLe d (11, 1) then .ok ()
        else .error (.valueError "Speed must be between 0.9-1.1")
  else if sect = "visual_script" then
    match pyIndex item "guidance_scale" with
    | none => .error .typeError
    | some v =>
      match asDecimal v with
      | none => .error .typeError
      | some d =>
        if decimalLe (11, 0) d && decimalLe d (14, 0) then .ok ()
        else .error (.valueError "Guidance scale must be 11.0-14.0")
  else .ok ()

/-- The `for item in script[section]` loop body. -/
def checkItem (sect : String) (fields : List String) (item : Json) : Except Verr Unit :=
  match checkFieldsLoop fields item sect with
  | .error e => .error e
  | .ok _ => rangeCheck sect item

def checkItemsLoop : List Json → String → List String → Except Verr Unit
  | [], _, _ => .ok ()
  | item :: rest, sect, fields =>
    match checkItem sect fields item with
    | .error e => .error e
    | .ok _ => checkItemsLoop rest sect fields

/-- One iteration of `for section, fields in required.items()`. -/
def checkSection (kvs : JsonObj) (sect : String)
    (fields : List String) : Except Verr Unit :=
  match pyGet kvs sect with
  | none => .error (.valueError ("Missing section: " ++ sect))
  | some sv =>
    match pyIter sv with
    | none => .error .typeError
    | some items => checkItemsLoop items sect fields

/-- `VideoScriptGenerator._validate_script` (wer.py lines 82-105): returns
`True` or raises; `required` iterates `audio_script` then `visual_script`
in dict insertion order.  A non-dict argument is modelled coarsely as a
TypeError (no theorem below exercises that branch). -/
def validate_script (script : Json) : Except Verr Bool :=
  match script with
  | .obj kvs =>
    match checkSection kvs "audio_script" audioFields with
    | .error e => .error e
    | .ok _ =>
      match checkSection kvs "visual_script" visualFields with
      | .error e => .error e
      | .ok _ => .ok true
  | _ => .error .typeError

/-! ## `generate_script` prompt construction

`scriptoll.py` lines 179-187 and `wer.py` lines 108-122.  The f-string
`\x7bkey_points or 'Comprehensive coverage'\x7d` falls back for `None` and
for an empty list (both falsy); a non-empty list is formatted by Python
`str()` as a bracketed, quoted, comma-separated sequence (string items
containing quotes would be repr-escaped; no claim depends on that). -/

def quoteCh : String := String.mk [Char.ofNat 39]

def pyStrList (ks : List String) : String :=
  "[" ++ String.intercalate ", " (ks.map (fun s => quoteCh ++ s ++ quoteCh)) ++ "]"

def keyPointsStr : Option (List String) → String
  | none => "Comprehensive coverage"
  | some [] => "Comprehensive coverage"
  | some ks => pyStrList ks

/-- The user prompt built by `generate_script` in `scriptoll.py` (179-187). -/
def promptScriptoll (topic : String) (duration : Nat) (kp : Option (List String)) : String :=
  "Generate a " ++ toString duration ++ "-second video script about: " ++ topic ++
  "\n        Key Points: " ++ keyPointsStr kp ++
  "\n        - At least " ++ toString (duration / 5) ++
  " segments (5-second intervals)\n        - Engaging and scientifically accurate narration\n        - Cinematic visuals with detailed prompts"

/-- The user prompt built by `generate_script` in `wer.py` (108-122). -/
def promptWer (topic : String) (duration : Nat) (kp : Option (List String)) : String :=
  "Generate a " ++ toString duration ++ "-second video script about: " ++ topic ++
  "\n        Key Points: " ++ keyPointsStr kp ++
  "\n        Requirements:\n        - At least " ++ toString (duration / 5) ++
  " segments (5-second intervals)\n        - Scientific accuracy with engaging delivery\n        - Cinematic visual descriptions\n        - Detailed negative prompts\n        - Seed continuity for visual elements"

/-! ## Digit arithmetic lemmas -/

theorem digitVal_digitChar (n : Nat) (h : n < 10) : digitVal (digitChar n) = n := by
  interval_cases n <;> rfl

theorem isDigitCh_digitChar (n : Nat) (h : n < 10) : isDigitCh (digitChar n) = true := by
  interval_cases n <;> rfl

theorem digitsVal_foldl_init (ds : List Char) :
    ∀ a, ds.foldl (fun acc c => acc * 10 + digitVal c) a =
      a * 10 ^ ds.length + digitsVal ds := by
  induction ds with
  | nil => intro a; simp [digitsVal]
  | cons c ds ih =>
    intro a
    have hc : digitsVal (c :: ds) = digitVal c * 10 ^ ds.length + digitsVal ds := by
      show List.foldl _ _ _ = _
      rw [List.foldl_cons, ih (0 * 10 + digitVal c)]
      ring_nf
    show List.foldl _ _ _ = _
    rw [List.foldl_cons, ih (a * 10 + digitVal c), hc]
    simp only [List.length_cons, pow_succ]
    ring

theorem digitsVal_append (ds es : List Char) :
    digitsVal (ds ++ es) = digitsVal ds * 10 ^ es.length + digitsVal es := by
  show List.foldl _ _ _ = _
  rw [List.foldl_append]
  have h0 : List.foldl (fun acc c => acc * 10 + digitVal c) 0 ds = digitsVal ds := rfl
  rw [h0, digitsVal_foldl_init es (digitsVal ds)]

theorem natDigitsAux_spec (fuel : Nat) :
    ∀ n, n < fuel →
      natDigitsAux fuel n ≠ [] ∧ (∀ c ∈ natDigitsAux fuel n, isDigitCh c = true) ∧
      digitsVal (natDigitsAux fuel n) = n := by
  induction fuel with
  | zero => intro n h; omega
  | succ fuel ih =>
    intro n h
    by_cases h10 : n < 10
    · simp only [natDigitsAux, if_pos h10]
      refine ⟨by simp, ?_, ?_⟩
      · intro c hc
        simp only [List.mem_singleton] at hc
        subst hc
        exact isDigitCh_digitChar n h10
      · simp [digitsVal, digitVal_digitChar n h10]
    · have hdiv : n / 10 < fuel := by
        have := Nat.div_lt_self (by omega : 0 < n) (by omega : 1 < 10)
        omega
      obtain ⟨hne, hdig, hval⟩ := ih (n / 10) hdiv
      simp only [natDigitsAux, if_neg h10]
      refine ⟨by simp, ?_, ?_⟩
      · intro c hc
        rcases List.mem_append.mp hc with hc | hc
        · exact hdig c hc
        · simp only [List.mem_singleton] at hc
          subst hc
          exact isDigitCh_digitChar _ (Nat.mod_lt _ (by omega))
      · rw [digitsVal_append, hval]
        have : digitsVal [digitChar (n % 10)] = n % 10 := by
          simp [digitsVal, digitVal_digitChar _ (Nat.mod_lt _ (by omega : 0 < 10))]
        rw [this]
        simp only [List.length_singleton, pow_one]
        omega

theorem natDigits_ne_nil (n : Nat) : natDigits n ≠ [] :=
  (natDigitsAux_spec (n + 1) n (by omega)).1

theorem natDigits_all_digit (n : Nat) : ∀ c ∈ natDigits n, isDigitCh c = true :=
  (natDigitsAux_spec (n + 1) n (by omega)).2.1

theorem digitsVal_natDigits (n : Nat) : digitsVal (natDigits n) = n :=
  (natDigitsAux_spec (n + 1) n (by omega)).2.2

theorem natDigitsAux_length_le (fuel : Nat) :
    ∀ n e, n < fuel → 0 < e → n < 10 ^ e → (natDigitsAux fuel n).length ≤ e := by
  induction fuel with
  | zero => intro n e h; omega
  | succ fuel ih =>
    intro n e h he hpow
    by_cases h10 : n < 10
    · simp only [natDigitsAux, if_pos h10, List.length_singleton]
      omega
    · have he2 : 2 ≤ e := by
        by_contra hlt
        have : e = 1 := by omega
        subst this
        simp at hpow
        omega
      have hdiv : n / 10 < fuel := by
        have := Nat.div_lt_self (by omega : 0 < n) (by omega : 1 < 10)
        omega
      have hdivpow : n / 10 < 10 ^ (e - 1) := by
        have h1 : n < 10 ^ (e - 1) * 10 := by
          have : 10 ^ (e - 1) * 10 = 10 ^ e := by
            rw [← pow_succ]
            congr 1
            omega
          omega
        omega
      have := ih (n / 10) (e - 1) hdiv (by omega) hdivpow
      simp only [natDigitsAux, if_neg h10, List.length_append, List.length_singleton]
      omega

theorem natDigits_length_le (n e : Nat) (he : 0 < e) (h : n < 10 ^ e) :
    (natDigits n).length ≤ e :=
  natDigitsAux_length_le (n + 1) n e (by omega) he h

/-! ## takeWhile / dropWhile over a recognized block -/

/-- The first character of `rest` (if any) fails `p`. -/
def headFails (p : Char → Bool) : List Char → Prop
  | [] => True
  | c :: _ => p c = false

theorem takeWhile_block (p : Char → Bool) (ds rest : List Char)
    (h : ∀ c ∈ ds, p c = true) (h2 : headFails p rest) :
    (ds ++ rest).takeWhile p = ds := by
  induction ds with
  | nil =>
    cases rest with
    | nil => rfl
    | cons c t =>
      simp only [headFails] at h2
      simp [List.takeWhile_cons, h2]
  | cons d ds ih =>
    have hd : p d = true := h d (by simp)
    simp [List.cons_append, List.takeWhile_cons, hd, ih (fun c hc => h c (by simp [hc]))]

theorem dropWhile_block (p : Char → Bool) (ds rest : List Char)
    (h : ∀ c ∈ ds, p c = true) (h2 : headFails p rest) :
    (ds ++ rest).dropWhile p = rest := by
  induction ds with
  | nil =>
    cases rest with
    | nil => rfl
    | cons c t =>
      simp only [headFails] at h2
      simp [List.dropWhile_cons, h2]
  | cons d ds ih =>
    have hd : p d = true := h d (by simp)
    simp only [List.cons_append, List.dropWhile_cons, hd]
    exact ih (fun c hc => h c (by simp [hc]))

theorem dropWhile_cons_of_neg (p : Char → Bool) (c : Char) (l : List Char)
    (h : p c = false) : (c :: l).dropWhile p = c :: l := by
  simp [List.dropWhile_cons, h]

theorem skipWs_cons (c : Char) (l : List Char) (h : isWs c = false) :
    skipWs (c :: l) = c :: l :=
  dropWhile_cons_of_neg isWs c l h

/-! ## String-literal round trip: parsing an escaped string body -/

theorem hexVal_hexDigitCh (d : Nat) (h : d < 16) : hexVal (hexDigitCh d) = some d := by
  interval_cases d <;> rfl

theorem parseStringBody_escList (s : List Char) : ∀ rest : List Char,
    parseStringBody (escList s ++ '"' :: rest) = some (s, rest) := by
  induction s with
  | nil =>
    intro rest
    simp only [escList, List.nil_append]
    rw [parseStringBody.eq_def]
    simp
  | cons c s ih =>
    intro rest
    by_cases h1 : c = '"'
    · subst h1
      simp only [escList, escapeChar, if_pos rfl, List.cons_append, List.append_assoc]
      rw [parseStringBody.eq_def]
      simp +decide [escCharInv, ih rest]
    by_cases h2 : c = '\\'
    · subst h2
      simp only [escList, escapeChar, if_neg h1, if_pos rfl, List.cons_append, List.append_assoc]
      rw [parseStringBody.eq_def]
      simp +decide [escCharInv, ih rest]
    by_cases h3 : c = '\n'
    · subst h3
      simp only [escList, escapeChar, if_neg h1, if_neg h2, if_pos rfl, List.cons_append,
        List.append_assoc]
      rw [parseStringBody.eq_def]
      simp +decide [escCharInv, ih rest]
    by_cases h4 : c = '\r'
    · subst h4
      simp only [escList, escapeChar, if_neg h1, if_neg h2, if_neg h3, if_pos rfl,
        List.cons_append, List.append_assoc]
      rw [parseStringBody.eq_def]
      simp +decide [escCharInv, ih rest]
    by_cases h5 : c = '\t'
    · subst h5
      simp only [escList, escapeChar, if_neg h1, if_neg h2, if_neg h3, if_neg h4, if_pos rfl,
        List.cons_append, List.append_assoc]
      rw [parseStringBody.eq_def]
      simp +decide [escCharInv, ih rest]
    by_cases h6 : c = Char.ofNat 8
    · subst h6
      simp only [escList, escapeChar, if_neg h1, if_neg h2, if_neg h3, if_neg h4, if_neg h5,
        if_pos rfl, List.cons_append, List.append_assoc]
      rw [parseStringBody.eq_def]
      simp +decide [escCharInv, ih rest]
    by_cases h7 : c = Char.ofNat 12
    · subst h7
      simp only [escList, escapeChar, if_neg h1, if_neg h2, if_neg h3, if_neg h4, if_neg h5,
        if_neg h6, if_pos rfl, List.cons_append, List.append_assoc]
      rw [parseStringBody.eq_def]
      simp +decide [escCharInv, ih rest]
    by_cases h8 : c.toNat < 32
    · simp only [escList, escapeChar, if_neg h1, if_neg h2, if_neg h3, if_neg h4, if_neg h5,
        if_neg h6, if_neg h7, if_pos h8, List.cons_append, List.append_assoc]
      have hd1 : hexVal (hexDigitCh (c.toNat / 16)) = some (c.toNat / 16) :=
        hexVal_hexDigitCh _ (by omega)
      have hd2 : hexVal (hexDigitCh (c.toNat % 16)) = some (c.toNat % 16) :=
        hexVal_hexDigitCh _ (Nat.mod_lt _ (by omega))
      have harith : ((0 * 16 + 0) * 16 + c.toNat / 16) * 16 + c.toNat % 16 = c.toNat := by
        omega
      have h0 : hexVal '0' = some 0 := rfl
      rw [parseStringBody.eq_def]
      simp +decide [h0, hd1, hd2, ih rest]
      rw [show c.toNat / 16 * 16 + c.toNat % 16 = c.toNat by omega, Char.ofNat_toNat]
    · simp only [escList, escapeChar, if_neg h1, if_neg h2, if_neg h3, if_neg h4, if_neg h5,
        if_neg h6, if_neg h7, if_neg h8, List.cons_append, List.singleton_append]
      rw [parseStringBody.eq_def]
      simp [if_neg h1, if_neg h2, if_neg h8, List.nil_append, ih rest]

/-! ## Number round trip -/

/-- After a serialized number, parsing must not continue into the rest:
its first character is neither a digit nor a decimal point. -/
def numBoundary : List Char → Prop
  | [] => True
  | c :: _ => isDigitCh c = false ∧ c ≠ '.'

theorem numBoundary.headFails_digit {rest : List Char} (h : numBoundary rest) :
    headFails isDigitCh rest := by
  cases rest with
  | nil => trivial
  | cons c t => exact h.1

theorem digitsVal_zeros (k : Nat) : ∀ ds : List Char,
    digitsVal (List.replicate k '0' ++ ds) = digitsVal ds := by
  induction k with
  | zero => intro ds; rfl
  | succ k ih =>
    intro ds
    show List.foldl _ _ _ = _
    rw [List.replicate_succ, List.cons_append, List.foldl_cons]
    exact ih ds

theorem parseNumAbs_ser (n e : Nat) (rest : List Char) (hrest : numBoundary rest) :
    parseNumAbs (serNumNat n e ++ rest) = some (n, e, rest) := by
  by_cases he : e = 0
  · subst he
    have htake : (natDigits n ++ rest).takeWhile isDigitCh = natDigits n :=
      takeWhile_block _ _ _ (natDigits_all_digit n) hrest.headFails_digit
    have hdrop : (natDigits n ++ rest).dropWhile isDigitCh = rest :=
      dropWhile_block _ _ _ (natDigits_all_digit n) hrest.headFails_digit
    have hne : (natDigits n).isEmpty = false := by
      cases hnd : natDigits n with
      | nil => exact absurd hnd (natDigits_ne_nil n)
      | cons a t => rfl
    have hser : serNumNat n 0 = natDigits n := by
      simp [serNumNat]
    rw [hser]
    unfold parseNumAbs
    rw [htake, hdrop, hne]
    simp only [Bool.false_eq_true, if_false]
    cases rest with
    | nil => simp [digitsVal_natDigits]
    | cons c t =>
      have hcdot : c ≠ '.' := hrest.2
      split
      · rename_i heq
        exact absurd (List.head_eq_of_cons_eq heq) hcdot
      · simp [digitsVal_natDigits]
  · -- e ≥ 1 : integer digits, a point, then exactly e fraction digits
    have hepos : 0 < e := Nat.pos_of_ne_zero he
    have hfp_lt : n % 10 ^ e < 10 ^ e := Nat.mod_lt _ (Nat.pos_pow_of_pos e (by omega))
    have hlen_le : (natDigits (n % 10 ^ e)).length ≤ e :=
      natDigits_length_le _ e hepos hfp_lt
    have hfds_digit : ∀ c ∈ List.replicate (e - (natDigits (n % 10 ^ e)).length) '0' ++
        natDigits (n % 10 ^ e), isDigitCh c = true := by
      intro c hc
      rcases List.mem_append.mp hc with hc | hc
      · rw [List.eq_of_mem_replicate hc]; rfl
      · exact natDigits_all_digit _ c hc
    have hfds_len : (List.replicate (e - (natDigits (n % 10 ^ e)).length) '0' ++
        natDigits (n % 10 ^ e)).length = e := by
      simp only [List.length_append, List.length_replicate]
      omega
    have hser : serNumNat n e ++ rest = natDigits (n / 10 ^ e) ++
        '.' :: ((List.replicate (e - (natDigits (n % 10 ^ e)).length) '0' ++
          natDigits (n % 10 ^ e)) ++ rest) := by
      simp [serNumNat, if_neg he, List.append_assoc]
    have htake : (natDigits (n / 10 ^ e) ++
        '.' :: ((List.replicate (e - (natDigits (n % 10 ^ e)).length) '0' ++
          natDigits (n % 10 ^ e)) ++ rest)).takeWhile isDigitCh = natDigits (n / 10 ^ e) :=
      takeWhile_block _ _ _ (natDigits_all_digit _) (by exact rfl)
    have hdrop : (natDigits (n / 10 ^ e) ++
        '.' :: ((List.replicate (e - (natDigits (n % 10 ^ e)).length) '0' ++
          natDigits (n % 10 ^ e)) ++ rest)).dropWhile isDigitCh =
        '.' :: ((List.replicate (e - (natDigits (n % 10 ^ e)).length) '0' ++
          natDigits (n % 10 ^ e)) ++ rest) :=
      dropWhile_block _ _ _ (natDigits_all_digit _) (by exact rfl)
    have hne : (natDigits (n / 10 ^ e)).isEmpty = false := by
      cases hnd : natDigits (n / 10 ^ e) with
      | nil => exact absurd hnd (natDigits_ne_nil _)
      | cons a t => rfl
    have htake2 : ((List.replicate (e - (natDigits (n % 10 ^ e)).length) '0' ++
        natDigits (n % 10 ^ e)) ++ rest).takeWhile isDigitCh =
        List.replicate (e - (natDigits (n % 10 ^ e)).length) '0' ++ natDigits (n % 10 ^ e) :=
      takeWhile_block _ _ _ hfds_digit hrest.headFails_digit
    have hdrop2 : ((List.replicate (e - (natDigits (n % 10 ^ e)).length) '0' ++
        natDigits (n % 10 ^ e)) ++ rest).dropWhile isDigitCh = rest :=
      dropWhile_block _ _ _ hfds_digit hrest.headFails_digit
    have hne2 : (List.replicate (e - (natDigits (n % 10 ^ e)).length) '0' ++
        natDigits (n % 10 ^ e)).isEmpty = false := by
      cases hnd : List.replicate (e - (natDigits (n % 10 ^ e)).length) '0' ++
          natDigits (n % 10 ^ e) with
      | nil =>
        have h2 := hfds_len
        rw [hnd] at h2
        simp at h2
        omega
      | cons a t => rfl
    have hval : digitsVal (natDigits (n / 10 ^ e) ++
        (List.replicate (e - (natDigits (n % 10 ^ e)).length) '0' ++
          natDigits (n % 10 ^ e))) = n := by
      rw [digitsVal_append, hfds_len, digitsVal_zeros, digitsVal_natDigits,
        digitsVal_natDigits, mul_comm, Nat.div_add_mod]
    rw [hser]
    unfold parseNumAbs
    rw [htake, hdrop, hne]
    simp only [Bool.false_eq_true, if_false, htake2, hdrop2, hne2, hfds_len, hval]

/-- `serNumNat` begins with a decimal digit. -/
theorem serNumNat_head (n e : Nat) :
    ∃ d t, serNumNat n e = d :: t ∧ isDigitCh d = true := by
  by_cases he : e = 0
  · subst he
    cases hnd : natDigits n with
    | nil => exact absurd hnd (natDigits_ne_nil n)
    | cons a t =>
      refine ⟨a, t, ?_, natDigits_all_digit n a (by simp [hnd])⟩
      rw [show serNumNat n 0 = natDigits n by simp [serNumNat], hnd]
  · cases hnd : natDigits (n / 10 ^ e) with
    | nil => exact absurd hnd (natDigits_ne_nil _)
    | cons a t =>
      refine ⟨a, t ++ '.' :: (List.replicate (e - (natDigits (n % 10 ^ e)).length) '0' ++
        natDigits (n % 10 ^ e)), ?_,
        natDigits_all_digit (n / 10 ^ e) a (by rw [hnd]; exact List.mem_cons_self a t)⟩
      unfold serNumNat
      rw [if_neg he, hnd]
      simp

theorem parseNumTok_ser (m : Int) (e : Nat) (rest : List Char) (hrest : numBoundary rest) :
    parseNumTok (serNum m e ++ rest) = some (Json.num m e, rest) := by
  by_cases hm : m < 0
  · have habs : -(↑m.natAbs : Int) = m := by omega
    simp only [serNum, if_pos hm, List.cons_append, parseNumTok,
      parseNumAbs_ser m.natAbs e rest hrest]
    show some (Json.num (-(↑m.natAbs : Int)) e, rest) = some (Json.num m e, rest)
    rw [habs]
  · have habs : (↑m.natAbs : Int) = m := by omega
    obtain ⟨d, t, hser, hdig⟩ := serNumNat_head m.natAbs e
    have hdm : d ≠ '-' := by
      intro hd
      subst hd
      exact absurd hdig (by decide)
    simp only [serNum, if_neg hm, hser, List.cons_append, parseNumTok]
    split
    · rename_i heq
      exact absurd (List.head_eq_of_cons_eq heq) hdm
    · rw [← List.cons_append, ← hser, parseNumAbs_ser m.natAbs e rest hrest]
      show some (Json.num (↑m.natAbs : Int) e, rest) = some (Json.num m e, rest)
      rw [habs]

/-! ## Serialized values: head-character classification -/

theorem isDigitCh_bounds (c : Char) (h : isDigitCh c = true) :
    48 ≤ c.toNat ∧ c.toNat ≤ 57 := by
  simp only [isDigitCh, Bool.and_eq_true, decide_eq_true_eq] at h
  exact h

theorem digit_not_special (c : Char) (h : isDigitCh c = true) :
    isWs c = false ∧ c ≠ '-' ∧ c ≠ '}' ∧ c ≠ ']' ∧ c ≠ '{' ∧ c ≠ '[' ∧ c ≠ '"' ∧
    c ≠ 'f' ∧ c ≠ 't' ∧ c ≠ 'n' := by
  refine ⟨?_, ?_, ?_, ?_, ?_, ?_, ?_, ?_, ?_, ?_⟩
  · by_contra hw
    rw [Bool.not_eq_false] at hw
    simp only [isWs, Bool.or_eq_true, decide_eq_true_eq] at hw
    rcases hw with ((h1 | h1) | h1) | h1 <;> (subst h1; exact absurd h (by decide))
  all_goals (intro heq; subst heq; exact absurd h (by decide))

theorem serNum_head (m : Int) (e : Nat) :
    ∃ c t, serNum m e = c :: t ∧ (isDigitCh c = true ∨ c = '-') := by
  by_cases hm : m < 0
  · exact ⟨'-', serNumNat m.natAbs e, by simp [serNum, if_pos hm], Or.inr rfl⟩
  · obtain ⟨d, t, hser, hdig⟩ := serNumNat_head m.natAbs e
    exact ⟨d, t, by simp [serNum, if_neg hm, hser], Or.inl hdig⟩

/-- Every serialized value starts with a character that is not whitespace
and not a closing bracket, brace or comma. -/
theorem serHead (m : Json) :
    ∃ c t, serializeVal m = c :: t ∧ c ≠ '}' ∧ c ≠ ']' ∧ isWs c = false := by
  cases m with
  | null => refine ⟨'n', ("ull").data, rfl, ?_, ?_, ?_⟩ <;> decide
  | bool b =>
    cases b with
    | true => refine ⟨'t', ("rue").data, rfl, ?_, ?_, ?_⟩ <;> decide
    | false => refine ⟨'f', ("alse").data, rfl, ?_, ?_, ?_⟩ <;> decide
  | num mm e =>
    obtain ⟨c, t, hser, hc⟩ := serNum_head mm e
    refine ⟨c, t, by simp [serializeVal, hser], ?_⟩
    rcases hc with hd | hd
    · obtain ⟨hw, _, h9, h8, _, _, _, _, _, _⟩ := digit_not_special c hd
      exact ⟨h9, h8, hw⟩
    · subst hd
      exact ⟨by decide, by decide, by decide⟩
  | str s => refine ⟨'"', _, rfl, ?_, ?_, ?_⟩ <;> decide
  | arr xs =>
    cases xs with
    | nil => refine ⟨'[', _, rfl, ?_, ?_, ?_⟩ <;> decide
    | cons x t => refine ⟨'[', _, rfl, ?_, ?_, ?_⟩ <;> decide
  | obj kvs =>
    cases kvs with
    | nil => refine ⟨'{', _, rfl, ?_, ?_, ?_⟩ <;> decide
    | cons k v t => refine ⟨'{', _, rfl, ?_, ?_, ?_⟩ <;> decide

theorem skipWs_ser (m : Json) (rest : List Char) :
    skipWs (serializeVal m ++ rest) = serializeVal m ++ rest := by
  obtain ⟨c, t, hser, _, _, hw⟩ := serHead m
  rw [hser, List.cons_append]
  exact skipWs_cons c (t ++ rest) hw

theorem Json.size_pos (m : Json) : 1 ≤ Json.size m := by
  cases m <;> simp [Json.size]

/-- The boundary after an element inside an array or object: a comma or
the closing bracket/brace, never a digit or point. -/
theorem numBoundary_arrTail (xs : JsonArr) (rest : List Char) :
    numBoundary (serArrTail xs ++ ']' :: rest) := by
  cases xs with
  | nil => exact ⟨by decide, by decide⟩
  | cons y ys => exact ⟨by decide, by decide⟩

theorem numBoundary_objTail (kvs : JsonObj) (rest : List Char) :
    numBoundary (serObjTail kvs ++ '}' :: rest) := by
  cases kvs with
  | nil => exact ⟨by decide, by decide⟩
  | cons k2 v2 kvs2 => exact ⟨by decide, by decide⟩

theorem skipWs_space (l : List Char) : skipWs (' ' :: l) = skipWs l := by
  show List.dropWhile _ _ = _
  rw [List.dropWhile_cons, if_pos (by decide : isWs ' ' = true)]
  rfl

/-- Round trip of the parser over the serializer, all three syntactic
categories at once, by induction on the parsing fuel. -/
theorem parse_serialize_aux (fuel : Nat) :
    (∀ (m : Json) (rest : List Char), Json.size m ≤ fuel → numBoundary rest →
      parseVal fuel (serializeVal m ++ rest) = some (m, rest)) ∧
    (∀ (x : Json) (xs : JsonArr) (rest : List Char), sizeArr (JsonArr.cons x xs) ≤ fuel →
      parseElems fuel (serializeVal x ++ (serArrTail xs ++ ']' :: rest)) =
        some (JsonArr.cons x xs, rest)) ∧
    (∀ (k : String) (v : Json) (kvs : JsonObj) (rest : List Char),
      sizeObj (JsonObj.cons k v kvs) ≤ fuel →
      parseMembers fuel (serMemberChars k v ++ (serObjTail kvs ++ '}' :: rest)) =
        some (JsonObj.cons k v kvs, rest)) := by
  induction fuel with
  | zero =>
    refine ⟨?_, ?_, ?_⟩
    · intro m rest hsz _
      have := Json.size_pos m
      omega
    · intro x xs rest hsz
      simp only [sizeArr] at hsz
      omega
    · intro k v kvs rest hsz
      simp only [sizeObj] at hsz
      omega
  | succ fuel ih =>
    obtain ⟨ihV, ihA, ihO⟩ := ih
    refine ⟨?_, ?_, ?_⟩
    · -- parseVal over a serialized value
      intro m rest hsz hrest
      cases m with
      | null =>
        show parseVal (fuel + 1) ('n' :: 'u' :: 'l' :: 'l' :: rest) = _
        rw [parseVal.eq_def]
        simp +decide [skipWs]
      | bool b =>
        cases b with
        | true =>
          show parseVal (fuel + 1) ('t' :: 'r' :: 'u' :: 'e' :: rest) = _
          rw [parseVal.eq_def]
          simp +decide [skipWs]
        | false =>
          show parseVal (fuel + 1) ('f' :: 'a' :: 'l' :: 's' :: 'e' :: rest) = _
          rw [parseVal.eq_def]
          simp +decide [skipWs]
      | str s =>
        have heq : serializeVal (.str s) ++ rest = '"' :: (escList s.data ++ '"' :: rest) := by
          simp [serializeVal, List.append_assoc]
        rw [heq, parseVal.eq_def]
        have hmk : String.mk s.data = s := rfl
        simp +decide [skipWs, parseStringBody_escList s.data rest, hmk]
      | num mm e =>
        obtain ⟨c, t, hser, hc⟩ := serNum_head mm e
        have heq : serializeVal (.num mm e) ++ rest = c :: (t ++ rest) := by
          show serNum mm e ++ rest = _
          rw [hser, List.cons_append]
        have hfacts : isWs c = false ∧ c ≠ '{' ∧ c ≠ '[' ∧ c ≠ '"' ∧ c ≠ 'f' ∧
            c ≠ 't' ∧ c ≠ 'n' := by
          rcases hc with hd | hd
          · obtain ⟨hw, _, _, _, b5, b6, b7, b8, b9, b10⟩ := digit_not_special c hd
            exact ⟨hw, b5, b6, b7, b8, b9, b10⟩
          · subst hd
            refine ⟨?_, ?_, ?_, ?_, ?_, ?_, ?_⟩ <;> decide
        obtain ⟨hw, hn6, hn5, hn4, hn3, hn2, hn1⟩ := hfacts
        rw [heq, parseVal.eq_def]
        have hskip : skipWs (c :: (t ++ rest)) = c :: (t ++ rest) := skipWs_cons _ _ hw
        simp only [hskip, if_neg hn1, if_neg hn2, if_neg hn3, if_neg hn4, if_neg hn5,
          if_neg hn6]
        rw [← List.cons_append, ← hser]
        exact parseNumTok_ser mm e rest hrest
      | arr xs =>
        cases xs with
        | nil =>
          show parseVal (fuel + 1) ('[' :: ']' :: rest) = _
          rw [parseVal.eq_def]
          simp +decide [skipWs]
        | cons x xs =>
          have heq : serializeVal (.arr (.cons x xs)) ++ rest =
              '[' :: (serializeVal x ++ (serArrTail xs ++ ']' :: rest)) := by
            simp [serializeVal, List.append_assoc]
          have hbound : sizeArr (JsonArr.cons x xs) ≤ fuel := by
            simp only [Json.size] at hsz
            omega
          have happ := ihA x xs rest hbound
          obtain ⟨c', t', hserx, hne2, hne1, hw'⟩ := serHead x
          rw [heq, parseVal.eq_def]
          show (match skipWs (serializeVal x ++ (serArrTail xs ++ ']' :: rest)) with
            | ']' :: r2 => some (Json.arr JsonArr.nil, r2)
            | cs2 => (parseElems fuel cs2).map
                (fun (p : JsonArr × List Char) => (Json.arr p.1, p.2)))
            = some (Json.arr (JsonArr.cons x xs), rest)
          rw [skipWs_ser x, hserx, List.cons_append]
          split
          · rename_i heq2
            exact absurd (List.head_eq_of_cons_eq heq2) hne1
          · rw [← List.cons_append, ← hserx, happ]
            rfl
      | obj kvs =>
        cases kvs with
        | nil =>
          show parseVal (fuel + 1) ('{' :: '}' :: rest) = _
          rw [parseVal.eq_def]
          simp +decide [skipWs]
        | cons k v kvs =>
          have heq : serializeVal (.obj (.cons k v kvs)) ++ rest =
              '{' :: (serMemberChars k v ++ (serObjTail kvs ++ '}' :: rest)) := by
            simp [serializeVal, serMemberChars, List.append_assoc]
          have hbound : sizeObj (JsonObj.cons k v kvs) ≤ fuel := by
            simp only [Json.size] at hsz
            omega
          have happ := ihO k v kvs rest hbound
          rw [heq, parseVal.eq_def]
          show (parseMembers fuel (serMemberChars k v ++ (serObjTail kvs ++ '}' :: rest))).map
              (fun (p : JsonObj × List Char) => (Json.obj p.1, p.2))
            = some (Json.obj (JsonObj.cons k v kvs), rest)
          rw [happ]
          rfl
    · -- parseElems over a serialized element sequence
      intro x xs rest hsz
      have hszx : Json.size x ≤ fuel := by
        simp only [sizeArr] at hsz
        omega
      rw [parseElems.eq_def]
      show (match parseVal fuel (serializeVal x ++ (serArrTail xs ++ ']' :: rest)) with
        | none => none
        | some (v, r) =>
          match skipWs r with
          | ',' :: r2 => (parseElems fuel (skipWs r2)).map
              (fun (p : JsonArr × List Char) => (JsonArr.cons v p.1, p.2))
          | ']' :: r2 => some (JsonArr.cons v JsonArr.nil, r2)
          | _ => none) = some (JsonArr.cons x xs, rest)
      rw [ihV x (serArrTail xs ++ ']' :: rest) hszx (numBoundary_arrTail xs rest)]
      cases xs with
      | nil => rfl
      | cons y ys =>
        have hbound : sizeArr (JsonArr.cons y ys) ≤ fuel := by
          simp only [sizeArr] at hsz ⊢
          have := Json.size_pos x
          omega
        show (parseElems fuel (skipWs ((serializeVal y ++ serArrTail ys) ++ ']' :: rest))).map
            (fun (p : JsonArr × List Char) => (JsonArr.cons x p.1, p.2))
          = some (JsonArr.cons x (JsonArr.cons y ys), rest)
        rw [List.append_assoc, skipWs_ser y, ihA y ys rest hbound]
        rfl
    · -- parseMembers over a serialized member sequence
      intro k v kvs rest hsz
      have hszv : Json.size v ≤ fuel := by
        simp only [sizeObj] at hsz
        omega
      have heq : serMemberChars k v ++ (serObjTail kvs ++ '}' :: rest) =
          '"' :: (escList k.data ++ '"' ::
            (':' :: ' ' :: (serializeVal v ++ (serObjTail kvs ++ '}' :: rest)))) := by
        simp [serMemberChars, List.append_assoc]
      rw [heq, parseMembers.eq_def]
      show (match parseStringBody (escList k.data ++ '"' ::
          (':' :: ' ' :: (serializeVal v ++ (serObjTail kvs ++ '}' :: rest)))) with
        | none => none
        | some (kk, r) =>
          match skipWs r with
          | ':' :: r2 =>
            match parseVal fuel (skipWs r2) with
            | none => none
            | some (w, r3) =>
              match skipWs r3 with
              | ',' :: r4 => (parseMembers fuel (skipWs r4)).map
                  (fun (p : JsonObj × List Char) => (JsonObj.cons (String.mk kk) w p.1, p.2))
              | '}' :: r4 => some (JsonObj.cons (String.mk kk) w JsonObj.nil, r4)
              | _ => none
          | _ => none) = some (JsonObj.cons k v kvs, rest)
      rw [parseStringBody_escList k.data]
      show (match parseVal fuel (skipWs (' ' ::
          (serializeVal v ++ (serObjTail kvs ++ '}' :: rest)))) with
        | none => none
        | some (w, r3) =>
          match skipWs r3 with
          | ',' :: r4 => (parseMembers fuel (skipWs r4)).map
              (fun (p : JsonObj × List Char) => (JsonObj.cons (String.mk k.data) w p.1, p.2))
          | '}' :: r4 => some (JsonObj.cons (String.mk k.data) w JsonObj.nil, r4)
          | _ => none) = some (JsonObj.cons k v kvs, rest)
      have hskipv : skipWs (' ' :: (serializeVal v ++ (serObjTail kvs ++ '}' :: rest))) =
          serializeVal v ++ (serObjTail kvs ++ '}' :: rest) := by
        rw [skipWs_space]
        exact skipWs_ser v _
      rw [hskipv, ihV v (serObjTail kvs ++ '}' :: rest) hszv (numBoundary_objTail kvs rest)]
      cases kvs with
      | nil => rfl
      | cons k2 v2 kvs2 =>
        have hbound : sizeObj (JsonObj.cons k2 v2 kvs2) ≤ fuel := by
          simp only [sizeObj] at hsz ⊢
          have := Json.size_pos v
          omega
        have heq3 : serObjTail (JsonObj.cons k2 v2 kvs2) ++ '}' :: rest =
            ',' :: ' ' :: (serMemberChars k2 v2 ++ (serObjTail kvs2 ++ '}' :: rest)) := by
          simp [serObjTail, serMemberChars, List.append_assoc]
        rw [heq3]
        show (parseMembers fuel (skipWs (' ' ::
            (serMemberChars k2 v2 ++ (serObjTail kvs2 ++ '}' :: rest))))).map
            (fun (p : JsonObj × List Char) => (JsonObj.cons (String.mk k.data) v p.1, p.2))
          = some (JsonObj.cons k v (JsonObj.cons k2 v2 kvs2), rest)
        have hskip2 : skipWs (' ' :: (serMemberChars k2 v2 ++ (serObjTail kvs2 ++ '}' :: rest))) =
            serMemberChars k2 v2 ++ (serObjTail kvs2 ++ '}' :: rest) := by
          rw [skipWs_space]
          show skipWs ('"' :: _) = _
          exact skipWs_cons _ _ (by decide)
        rw [hskip2, ihO k2 v2 kvs2 rest hbound]
        rfl

mutual
theorem size_le_len : ∀ m : Json, Json.size m ≤ (serializeVal m).length + 1
  | .null => by
    simp only [Json.size]
    omega
  | .bool true => by
    simp only [Json.size]
    omega
  | .bool false => by
    simp only [Json.size]
    omega
  | .num mm e => by
    simp only [Json.size]
    omega
  | .str s => by
    simp only [Json.size]
    omega
  | .arr .nil => by simp [Json.size, sizeArr, serializeVal]
  | .arr (.cons x xs) => by
    have h1 := size_le_len x
    have h2 := sizeArr_le_len xs
    simp only [Json.size, sizeArr, serializeVal, List.length_cons, List.length_append]
    omega
  | .obj .nil => by simp [Json.size, sizeObj, serializeVal]
  | .obj (.cons k v kvs) => by
    have h1 := size_le_len v
    have h2 := sizeObj_le_len kvs
    simp only [Json.size, sizeObj, serializeVal, List.length_cons, List.length_append]
    omega

theorem sizeArr_le_len : ∀ xs : JsonArr, sizeArr xs ≤ (serArrTail xs).length
  | .nil => by simp [sizeArr, serArrTail]
  | .cons y ys => by
    have h1 := size_le_len y
    have h2 := sizeArr_le_len ys
    simp only [sizeArr, serArrTail, List.length_cons, List.length_append]
    omega

theorem sizeObj_le_len : ∀ kvs : JsonObj, sizeObj kvs ≤ (serObjTail kvs).length
  | .nil => by simp [sizeObj, serObjTail]
  | .cons k2 v2 kvs2 => by
    have h1 := size_le_len v2
    have h2 := sizeObj_le_len kvs2
    simp only [sizeObj, serObjTail, List.length_cons, List.length_append]
    omega
end

/-- `json.loads` recovers every value serialized by `json.dumps`. -/
theorem loads_serialize (m : Json) : loads (serializeVal m) = some m := by
  have hsz : Json.size m ≤ (serializeVal m).length + 1 := size_le_len m
  have h1 := (parse_serialize_aux ((serializeVal m).length + 1)).1 m [] hsz trivial
  rw [List.append_nil] at h1
  unfold loads
  rw [h1]
  rfl

/-! ## Behavior of the extraction cascade, stage by stage -/

theorem extract_direct (raw : String) (v : Json) (h : loads raw.data = some v) :
    extractJsonImpl raw = .ok v := by
  unfold extractJsonImpl
  rw [h]

theorem extract_fenced (raw : String) (interior : List Char)
    (h1 : loads raw.data = none) (h2 : findFenced raw.data = some interior) :
    extractJsonImpl raw =
      (match loads interior with | some v => .ok v | none => .error extractErr) := by
  unfold extractJsonImpl
  rw [h1, h2]

theorem extract_nofence_span (raw : String) (span : List Char)
    (h1 : loads raw.data = none) (h2 : findFenced raw.data = none)
    (h3 : findBraceSpan raw.data = some span) :
    extractJsonImpl raw =
      (match loads span with | some v => .ok v | none => .error extractErr) := by
  unfold extractJsonImpl
  rw [h1, h2, h3]

theorem extract_nothing (raw : String)
    (h1 : loads raw.data = none) (h2 : findFenced raw.data = none)
    (h3 : findBraceSpan raw.data = none) :
    extractJsonImpl raw = .ok (Json.obj .nil) := by
  unfold extractJsonImpl
  rw [h1, h2, h3]

/-- The greedy brace regex captures from the first open brace to the last
close brace of the whole text. -/
theorem findBraceSpan_split (pre mid post : List Char)
    (hpre : '{' ∉ pre) (hpost : '}' ∉ post) :
    findBraceSpan (pre ++ '{' :: (mid ++ '}' :: post)) = some ('{' :: (mid ++ ['}'])) := by
  induction pre with
  | nil =>
    simp only [List.nil_append]
    rw [findBraceSpan.eq_def]
    simp only [if_pos rfl]
    have hrev : ('{' :: (mid ++ '}' :: post)).reverse =
        post.reverse ++ '}' :: (mid.reverse ++ ['{']) := by
      simp [List.reverse_cons, List.reverse_append, List.append_assoc]
    have hdrop : (post.reverse ++ '}' :: (mid.reverse ++ ['{'])).dropWhile
        (fun c => !(c = '}')) = '}' :: (mid.reverse ++ ['{']) := by
      refine dropWhile_block _ _ _ ?_ (by simp [headFails])
      intro c hc
      have : c ∈ post := List.mem_reverse.mp hc
      have hcne : c ≠ '}' := fun hcc => hpost (hcc ▸ this)
      simp [hcne]
    unfold cutAfterLastBrace
    rw [hrev, hdrop]
    simp [List.reverse_cons, List.reverse_append, List.append_assoc]
  | cons p ps ih =>
    have hp : p ≠ '{' := fun hpp => hpre (by simp [hpp])
    simp only [List.cons_append]
    rw [findBraceSpan.eq_def]
    simp only [if_neg hp]
    exact ih (fun hmem => hpre (by simp [hmem]))

/-! ## Spec-side script predicates

These predicates restate, in the claim language, which scripts the
validator is supposed to accept; they are compared against
`validate_script` (translated from the source) in the theorems below. -/

def itemHasFieldsB (fields : List String) (item : Json) : Bool :=
  match item with
  | .obj ikvs => fields.all (fun f => (pyGet ikvs f).isSome)
  | _ => false

def fieldInRangeB (field : String) (lo hi : Int × Nat) (item : Json) : Bool :=
  match item with
  | .obj ikvs =>
    match pyGet ikvs field with
    | some (.num mm e) => decimalLe lo (mm, e) && decimalLe (mm, e) hi
    | _ => false
  | _ => false

/-- An audio segment as the spec requires it: the six fields present and
`speed` a number in `[0.9, 1.1]`. -/
def audioItemOkB (item : Json) : Bool :=
  itemHasFieldsB audioFields item && fieldInRangeB "speed" (9, 1) (11, 1) item

/-- A visual segment as the spec requires it: the nine fields present and
`guidance_scale` a number in `[11.0, 14.0]`. -/
def visualItemOkB (item : Json) : Bool :=
  itemHasFieldsB visualFields item && fieldInRangeB "guidance_scale" (11, 0) (14, 0) item

/-- The script condition stated by the spec: both sections present as
arrays, every audio item `audioItemOkB`, every visual item
`visualItemOkB`.  Nothing else — no `topic`, no `pitch`, `steps`, `seed`,
`width` or `height` ranges, extra keys allowed. -/
def wellFormedScriptB (s : Json) : Bool :=
  match s with
  | .obj kvs =>
    (match pyGet kvs "audio_script" with
     | some (.arr items) => items.toList.all audioItemOkB
     | _ => false) &&
    (match pyGet kvs "visual_script" with
     | some (.arr items) => items.toList.all visualItemOkB
     | _ => false)
  | _ => false

/-- Shape restriction under which the Lean model of the validator agrees
with the dynamic behavior of the Python original on every branch: the
script is a dict whose section values (when present) are lists of dicts,
and the checked range field (when present) is a number. -/
def itemShapeB (rangeField : String) (item : Json) : Bool :=
  match item with
  | .obj ikvs =>
    match pyGet ikvs rangeField with
    | none => true
    | some (.num _ _) => true
    | some _ => false
  | _ => false

def sectionShapeB (rangeField : String) (v : Json) : Bool :=
  match v with
  | .arr items => items.toList.all (itemShapeB rangeField)
  | _ => false

def scriptShapeB (s : Json) : Bool :=
  match s with
  | .obj kvs =>
    (match pyGet kvs "audio_script" with
     | none => true
     | some v => sectionShapeB "speed" v) &&
    (match pyGet kvs "visual_script" with
     | none => true
     | some v => sectionShapeB "guidance_scale" v)
  | _ => false

/-! ## Characterization of the validator -/

theorem checkFieldsLoop_ok_iff (fields : List String) (ikvs : JsonObj) (sect : String) :
    checkFieldsLoop fields (Json.obj ikvs) sect = .ok () ↔
    fields.all (fun f => (pyGet ikvs f).isSome) = true := by
  induction fields with
  | nil => simp [checkFieldsLoop]
  | cons f fs ih =>
    simp only [checkFieldsLoop, pyIn, List.all_cons, Bool.and_eq_true]
    cases hf : (pyGet ikvs f).isSome with
    | true => simp [ih]
    | false => simp

theorem rangeCheck_audio_iff (item : Json) (hshape : itemShapeB "speed" item = true) :
    rangeCheck "audio_script" item = .ok () ↔
    fieldInRangeB "speed" (9, 1) (11, 1) item = true := by
  cases item with
  | obj ikvs =>
    simp only [rangeCheck, if_pos rfl, pyIndex, fieldInRangeB]
    cases hget : pyGet ikvs "speed" with
    | none => simp
    | some v =>
      cases v with
      | num mm e =>
        simp only [asDecimal]
        cases hle : decimalLe (9, 1) (mm, e) && decimalLe (mm, e) (11, 1) with
        | true => simp [hle]
        | false => simp [hle]
      | null => simp [itemShapeB, hget] at hshape
      | bool b => simp [itemShapeB, hget] at hshape
      | str s => simp [itemShapeB, hget] at hshape
      | arr xs => simp [itemShapeB, hget] at hshape
      | obj kvs2 => simp [itemShapeB, hget] at hshape
  | null => simp [itemShapeB] at hshape
  | bool b => simp [itemShapeB] at hshape
  | num mm e => simp [itemShapeB] at hshape
  | str s => simp [itemShapeB] at hshape
  | arr xs => simp [itemShapeB] at hshape

theorem rangeCheck_visual_iff (item : Json)
    (hshape : itemShapeB "guidance_scale" item = true) :
    rangeCheck "visual_script" item = .ok () ↔
    fieldInRangeB "guidance_scale" (11, 0) (14, 0) item = true := by
  cases item with
  | obj ikvs =>
    simp only [rangeCheck, if_neg (by decide : ¬("visual_script" = "audio_script")),
      if_pos rfl, pyIndex, fieldInRangeB]
    cases hget : pyGet ikvs "guidance_scale" with
    | none => simp
    | some v =>
      cases v with
      | num mm e =>
        simp only [asDecimal]
        cases hle : decimalLe (11, 0) (mm, e) && decimalLe (mm, e) (14, 0) with
        | true => simp [hle]
        | false => simp [hle]
      | null => simp [itemShapeB, hget] at hshape
      | bool b => simp [itemShapeB, hget] at hshape
      | str s => simp [itemShapeB, hget] at hshape
      | arr xs => simp [itemShapeB, hget] at hshape
      | obj kvs2 => simp [itemShapeB, hget] at hshape
  | null => simp [itemShapeB] at hshape
  | bool b => simp [itemShapeB] at hshape
  | num mm e => simp [itemShapeB] at hshape
  | str s => simp [itemShapeB] at hshape
  | arr xs => simp [itemShapeB] at hshape

theorem checkItem_audio_iff (item : Json) (hshape : itemShapeB "speed" item = true) :
    checkItem "audio_script" audioFields item = .ok () ↔ audioItemOkB item = true := by
  have hobj : ∃ ikvs, item = Json.obj ikvs := by
    cases item with
    | obj ikvs => exact ⟨ikvs, rfl⟩
    | null => simp [itemShapeB] at hshape
    | bool b => simp [itemShapeB] at hshape
    | num mm e => simp [itemShapeB] at hshape
    | str s => simp [itemShapeB] at hshape
    | arr xs => simp [itemShapeB] at hshape
  obtain ⟨ikvs, rfl⟩ := hobj
  simp only [checkItem, audioItemOkB]
  cases hfl : checkFieldsLoop audioFields (Json.obj ikvs) "audio_script" with
  | error e =>
    have hall : itemHasFieldsB audioFields (Json.obj ikvs) = false := by
      cases hv : audioFields.all (fun f => (pyGet ikvs f).isSome) with
      | true =>
        rw [(checkFieldsLoop_ok_iff audioFields ikvs "audio_script").mpr hv] at hfl
        exact Except.noConfusion hfl
      | false => simp [itemHasFieldsB, hv]
    simp [hall]
  | ok u =>
    have hv : audioFields.all (fun f => (pyGet ikvs f).isSome) = true := by
      have : checkFieldsLoop audioFields (Json.obj ikvs) "audio_script" = .ok () := by
        rw [hfl]
      exact (checkFieldsLoop_ok_iff audioFields ikvs "audio_script").mp this
    have hh : itemHasFieldsB audioFields (Json.obj ikvs) = true := by
      simp [itemHasFieldsB, hv]
    simp only [hh, Bool.true_and]
    exact rangeCheck_audio_iff (Json.obj ikvs) hshape

theorem checkItem_visual_iff (item : Json)
    (hshape : itemShapeB "guidance_scale" item = true) :
    checkItem "visual_script" visualFields item = .ok () ↔ visualItemOkB item = true := by
  have hobj : ∃ ikvs, item = Json.obj ikvs := by
    cases item with
    | obj ikvs => exact ⟨ikvs, rfl⟩
    | null => simp [itemShapeB] at hshape
    | bool b => simp [itemShapeB] at hshape
    | num mm e => simp [itemShapeB] at hshape
    | str s => simp [itemShapeB] at hshape
    | arr xs => simp [itemShapeB] at hshape
  obtain ⟨ikvs, rfl⟩ := hobj
  simp only [checkItem, visualItemOkB]
  cases hfl : checkFieldsLoop visualFields (Json.obj ikvs) "visual_script" with
  | error e =>
    have hall : itemHasFieldsB visualFields (Json.obj ikvs) = false := by
      cases hv : visualFields.all (fun f => (pyGet ikvs f).isSome) with
      | true =>
        rw [(checkFieldsLoop_ok_iff visualFields ikvs "visual_script").mpr hv] at hfl
        exact Except.noConfusion hfl
      | false => simp [itemHasFieldsB, hv]
    simp [hall]
  | ok u =>
    have hv : visualFields.all (fun f => (pyGet ikvs f).isSome) = true := by
      have : checkFieldsLoop visualFields (Json.obj ikvs) "visual_script" = .ok () := by
        rw [hfl]
      exact (checkFieldsLoop_ok_iff visualFields ikvs "visual_script").mp this
    have hh : itemHasFieldsB visualFields (Json.obj ikvs) = true := by
      simp [itemHasFieldsB, hv]
    simp only [hh, Bool.true_and]
    exact rangeCheck_visual_iff (Json.obj ikvs) hshape

theorem checkItemsLoop_ok_iff (items : List Json) (sect : String) (fields : List String) :
    checkItemsLoop items sect fields = .ok () ↔
    ∀ item ∈ items, checkItem sect fields item = .ok () := by
  induction items with
  | nil => simp [checkItemsLoop]
  | cons item rest ih =>
    simp only [checkItemsLoop, List.mem_cons]
    cases hi : checkItem sect fields item with
    | error e =>
      constructor
      · intro h
        exact Except.noConfusion h
      · intro h
        have := h item (Or.inl rfl)
        rw [hi] at this
        exact Except.noConfusion this
    | ok u =>
      rw [ih]
      constructor
      · intro h it hmem
        rcases hmem with rfl | hmem
        · rw [hi]
        · exact h it hmem
      · intro h it hmem
        exact h it (Or.inr hmem)

theorem checkSection_audio_ok_iff (kvs : JsonObj)
    (hsh : ∀ v, pyGet kvs "audio_script" = some v → sectionShapeB "speed" v = true) :
    checkSection kvs "audio_script" audioFields = .ok () ↔
    (match pyGet kvs "audio_script" with
     | some (.arr items) => items.toList.all audioItemOkB
     | _ => false) = true := by
  cases hget : pyGet kvs "audio_script" with
  | none => simp [checkSection, hget]
  | some v =>
    have hshv := hsh v hget
    cases v with
    | arr items =>
      simp only [checkSection, hget, pyIter]
      rw [checkItemsLoop_ok_iff, List.all_eq_true]
      simp only [sectionShapeB, List.all_eq_true] at hshv
      constructor
      · intro h it hmem
        exact (checkItem_audio_iff it (hshv it hmem)).mp (h it hmem)
      · intro h it hmem
        exact (checkItem_audio_iff it (hshv it hmem)).mpr (h it hmem)
    | null => simp [sectionShapeB] at hshv
    | bool b => simp [sectionShapeB] at hshv
    | num mm e => simp [sectionShapeB] at hshv
    | str s => simp [sectionShapeB] at hshv
    | obj kvs2 => simp [sectionShapeB] at hshv

theorem checkSection_visual_ok_iff (kvs : JsonObj)
    (hsh : ∀ v, pyGet kvs "visual_script" = some v → sectionShapeB "guidance_scale" v = true) :
    checkSection kvs "visual_script" visualFields = .ok () ↔
    (match pyGet kvs "visual_script" with
     | some (.arr items) => items.toList.all visualItemOkB
     | _ => false) = true := by
  cases hget : pyGet kvs "visual_script" with
  | none => simp [checkSection, hget]
  | some v =>
    have hshv := hsh v hget
    cases v with
    | arr items =>
      simp only [checkSection, hget, pyIter]
      rw [checkItemsLoop_ok_iff, List.all_eq_true]
      simp only [sectionShapeB, List.all_eq_true] at hshv
      constructor
      · intro h it hmem
        exact (checkItem_visual_iff it (hshv it hmem)).mp (h it hmem)
      · intro h it hmem
        exact (checkItem_visual_iff it (hshv it hmem)).mpr (h it hmem)
    | null => simp [sectionShapeB] at hshv
    | bool b => simp [sectionShapeB] at hshv
    | num mm e => simp [sectionShapeB] at hshv
    | str s => simp [sectionShapeB] at hshv
    | obj kvs2 => simp [sectionShapeB] at hshv

/-- Under the dict-of-lists-of-dicts shape, the validator accepts exactly
the scripts satisfying the spec condition. -/
theorem validate_ok_iff (s : Json) (hshape : scriptShapeB s = true) :
    validate_script s = .ok true ↔ wellFormedScriptB s = true := by
  have hobj : ∃ kvs, s = Json.obj kvs := by
    cases s with
    | obj kvs => exact ⟨kvs, rfl⟩
    | null => simp [scriptShapeB] at hshape
    | bool b => simp [scriptShapeB] at hshape
    | num mm e => simp [scriptShapeB] at hshape
    | str ss => simp [scriptShapeB] at hshape
    | arr xs => simp [scriptShapeB] at hshape
  obtain ⟨kvs, rfl⟩ := hobj
  have hsh1 : ∀ v, pyGet kvs "audio_script" = some v → sectionShapeB "speed" v = true := by
    intro v hv
    simp only [scriptShapeB, hv, Bool.and_eq_true] at hshape
    exact hshape.1
  have hsh2 : ∀ v, pyGet kvs "visual_script" = some v →
      sectionShapeB "guidance_scale" v = true := by
    intro v hv
    simp only [scriptShapeB, hv, Bool.and_eq_true] at hshape
    exact hshape.2
  simp only [validate_script, wellFormedScriptB, Bool.and_eq_true]
  cases h1 : checkSection kvs "audio_script" audioFields with
  | error e =>
    have haud : ¬((match pyGet kvs "audio_script" with
        | some (.arr items) => items.toList.all audioItemOkB
        | _ => false) = true) := by
      intro hh
      rw [(checkSection_audio_ok_iff kvs hsh1).mpr hh] at h1
      exact Except.noConfusion h1
    simp only []
    constructor
    · intro hcontr
      exact Except.noConfusion hcontr
    · intro hh
      exact absurd hh.1 haud
  | ok u =>
    have haud : (match pyGet kvs "audio_script" with
        | some (.arr items) => items.toList.all audioItemOkB
        | _ => false) = true := by
      refine (checkSection_audio_ok_iff kvs hsh1).mp ?_
      rw [h1]
    cases h2 : checkSection kvs "visual_script" visualFields with
    | error e =>
      have hvis : ¬((match pyGet kvs "visual_script" with
          | some (.arr items) => items.toList.all visualItemOkB
          | _ => false) = true) := by
        intro hh
        rw [(checkSection_visual_ok_iff kvs hsh2).mpr hh] at h2
        exact Except.noConfusion h2
      constructor
      · intro hcontr
        exact Except.noConfusion hcontr
      · intro hh
        exact absurd hh.2 hvis
    | ok u2 =>
      have hvis : (match pyGet kvs "visual_script" with
          | some (.arr items) => items.toList.all visualItemOkB
          | _ => false) = true := by
        refine (checkSection_visual_ok_iff kvs hsh2).mp ?_
        rw [h2]
      simp [haud, hvis]

/-- A spec-well-formed script automatically satisfies the model-agreement
shape. -/
theorem wellFormed_shape (s : Json) (h : wellFormedScriptB s = true) :
    scriptShapeB s = true := by
  cases s with
  | obj kvs =>
    simp only [wellFormedScriptB, Bool.and_eq_true] at h
    obtain ⟨h1, h2⟩ := h
    simp only [scriptShapeB, Bool.and_eq_true]
    constructor
    · cases hget : pyGet kvs "audio_script" with
      | none => rfl
      | some v =>
        rw [hget] at h1
        cases v with
        | arr items =>
          simp only [sectionShapeB, List.all_eq_true] at h1 ⊢
          intro it hmem
          have := h1 it hmem
          simp only [audioItemOkB, Bool.and_eq_true] at this
          obtain ⟨hf, hr⟩ := this
          cases it with
          | obj ikvs =>
            simp only [fieldInRangeB] at hr
            simp only [itemShapeB]
            cases hg : pyGet ikvs "speed" with
            | none => rfl
            | some w =>
              rw [hg] at hr
              cases w with
              | num mm e => rfl
              | null => simp at hr
              | bool b => simp at hr
              | str ss => simp at hr
              | arr xs => simp at hr
              | obj kk => simp at hr
          | null => simp [itemHasFieldsB] at hf
          | bool b => simp [itemHasFieldsB] at hf
          | num mm e => simp [itemHasFieldsB] at hf
          | str ss => simp [itemHasFieldsB] at hf
          | arr xs => simp [itemHasFieldsB] at hf
        | null => simp at h1
        | bool b => simp at h1
        | num mm e => simp at h1
        | str ss => simp at h1
        | obj kk => simp at h1
    · cases hget : pyGet kvs "visual_script" with
      | none => rfl
      | some v =>
        rw [hget] at h2
        cases v with
        | arr items =>
          simp only [sectionShapeB, List.all_eq_true] at h2 ⊢
          intro it hmem
          have := h2 it hmem
          simp only [visualItemOkB, Bool.and_eq_true] at this
          obtain ⟨hf, hr⟩ := this
          cases it with
          | obj ikvs =>
            simp only [fieldInRangeB] at hr
            simp only [itemShapeB]
            cases hg : pyGet ikvs "guidance_scale" with
            | none => rfl
            | some w =>
              rw [hg] at hr
              cases w with
              | num mm e => rfl
              | null => simp at hr
              | bool b => simp at hr
              | str ss => simp at hr
              | arr xs => simp at hr
              | obj kk => simp at hr
          | null => simp [itemHasFieldsB] at hf
          | bool b => simp [itemHasFieldsB] at hf
          | num mm e => simp [itemHasFieldsB] at hf
          | str ss => simp [itemHasFieldsB] at hf
          | arr xs => simp [itemHasFieldsB] at hf
        | null => simp at h2
        | bool b => simp at h2
        | num mm e => simp at h2
        | str ss => simp at h2
        | obj kk => simp at h2
  | null => simp [wellFormedScriptB] at h
  | bool b => simp [wellFormedScriptB] at h
  | num mm e => simp [wellFormedScriptB] at h
  | str ss => simp [wellFormedScriptB] at h
  | arr xs => simp [wellFormedScriptB] at h

/-! ## The claims -/

/-- **C1.** For every raw text that parses directly as a JSON object, the
extraction operation of both variants returns the mapping equivalent to
that text, never consulting the fenced-block or brace-span fallbacks; in
particular extraction round-trips serialization: extracting the
serialized JSON form of any mapping returns the mapping. -/
theorem C1_direct_parse_and_roundtrip :
    (∀ (raw : String) (kvs : JsonObj), loads raw.data = some (Json.obj kvs) →
      extract_json_scriptoll raw = .ok (Json.obj kvs) ∧
      extract_json_wer raw = .ok (Json.obj kvs)) ∧
    (∀ kvs : JsonObj,
      extract_json_scriptoll (serialize (Json.obj kvs)) = .ok (Json.obj kvs) ∧
      extract_json_wer (serialize (Json.obj kvs)) = .ok (Json.obj kvs)) := by
  constructor
  · intro raw kvs h
    exact ⟨extract_direct raw _ h, extract_direct raw _ h⟩
  · intro kvs
    have h : loads (serialize (Json.obj kvs)).data = some (Json.obj kvs) := by
      show loads (serializeVal (Json.obj kvs)) = _
      exact loads_serialize _
    exact ⟨extract_direct _ _ h, extract_direct _ _ h⟩

theorem C1_witness :
    loads ("\x7b\"a\": 1\x7d").data = some (Json.obj (JsonObj.cons "a" (Json.num 1 0) .nil)) ∧
    extract_json_scriptoll ("\x7b\"a\": 1\x7d") =
      .ok (Json.obj (JsonObj.cons "a" (Json.num 1 0) .nil)) ∧
    extract_json_wer ("\x7b\"a\": 1\x7d") =
      .ok (Json.obj (JsonObj.cons "a" (Json.num 1 0) .nil)) := by
  have h : loads ("\x7b\"a\": 1\x7d").data =
      some (Json.obj (JsonObj.cons "a" (Json.num 1 0) .nil)) := rfl
  exact ⟨h, (C1_direct_parse_and_roundtrip.1 _ _ h).1,
    (C1_direct_parse_and_roundtrip.1 _ _ h).2⟩

/-- **C2** (counterexample): on raw text that is not valid JSON, whose
fenced block has an unparseable interior, and whose greedy brace span IS
valid JSON, the code raises the extraction `ValueError` instead of
falling through to the brace span as the claim asserts. -/
theorem C2_counterexample :
    extract_json_scriptoll ("oops\n```json\nnot json\n```\n\x7b\"a\": 1\x7d") =
      .error extractErr ∧
    extract_json_wer ("oops\n```json\nnot json\n```\n\x7b\"a\": 1\x7d") =
      .error extractErr ∧
    findFenced ("oops\n```json\nnot json\n```\n\x7b\"a\": 1\x7d").data =
      some ("not json").data ∧
    loads ("not json").data = none ∧
    findBraceSpan ("oops\n```json\nnot json\n```\n\x7b\"a\": 1\x7d").data =
      some ("\x7b\"a\": 1\x7d").data ∧
    loads ("\x7b\"a\": 1\x7d").data = some (Json.obj (JsonObj.cons "a" (Json.num 1 0) .nil)) ∧
    extract_json_scriptoll ("oops\n```json\nnot json\n```\n\x7b\"a\": 1\x7d") ≠
      .ok (Json.obj (JsonObj.cons "a" (Json.num 1 0) .nil)) := by
  refine ⟨rfl, rfl, rfl, rfl, rfl, rfl, ?_⟩
  intro h
  exact Except.noConfusion h

/-- **C2** (amended): if the raw text is not valid JSON and a ```json
fenced block is found, its interior is committed: a parse failure of the
interior raises the extraction error and the brace-span fallback is never
consulted; the brace span is parsed and returned only when no fenced
block matches. -/
theorem C2_amended_fence_commits :
    (∀ (raw : String) (interior : List Char), loads raw.data = none →
      findFenced raw.data = some interior → loads interior = none →
      extract_json_scriptoll raw = .error extractErr ∧
      extract_json_wer raw = .error extractErr) ∧
    (∀ (raw : String) (span : List Char) (v : Json), loads raw.data = none →
      findFenced raw.data = none → findBraceSpan raw.data = some span →
      loads span = some v →
      extract_json_scriptoll raw = .ok v ∧ extract_json_wer raw = .ok v) := by
  constructor
  · intro raw interior h1 h2 h3
    have h := extract_fenced raw interior h1 h2
    rw [h3] at h
    exact ⟨h, h⟩
  · intro raw span v h1 h2 h3 h4
    have h := extract_nofence_span raw span h1 h2 h3
    rw [h4] at h
    exact ⟨h, h⟩

theorem C2_witness :
    (loads ("oops\n```json\nnot json\n```\n\x7b\"a\": 1\x7d").data = none ∧
     findFenced ("oops\n```json\nnot json\n```\n\x7b\"a\": 1\x7d").data =
       some ("not json").data ∧
     loads ("not json").data = none ∧
     extract_json_scriptoll ("oops\n```json\nnot json\n```\n\x7b\"a\": 1\x7d") =
       .error extractErr) ∧
    (loads ("junk \x7b\"a\": 1\x7d").data = none ∧
     findFenced ("junk \x7b\"a\": 1\x7d").data = none ∧
     findBraceSpan ("junk \x7b\"a\": 1\x7d").data = some ("\x7b\"a\": 1\x7d").data ∧
     loads ("\x7b\"a\": 1\x7d").data =
       some (Json.obj (JsonObj.cons "a" (Json.num 1 0) .nil)) ∧
     extract_json_wer ("junk \x7b\"a\": 1\x7d") =
       .ok (Json.obj (JsonObj.cons "a" (Json.num 1 0) .nil))) := by
  refine ⟨⟨rfl, rfl, rfl, ?_⟩, ⟨rfl, rfl, rfl, rfl, ?_⟩⟩
  · exact (C2_amended_fence_commits.1 ("oops\n```json\nnot json\n```\n\x7b\"a\": 1\x7d")
      (("not json").data) rfl rfl rfl).1
  · exact (C2_amended_fence_commits.2 ("junk \x7b\"a\": 1\x7d") (("\x7b\"a\": 1\x7d").data)
      (Json.obj (JsonObj.cons "a" (Json.num 1 0) .nil)) rfl rfl rfl rfl).2

/-- **C3.** On raw text that is not valid JSON and has no fenced block,
the brace-span fallback captures the single span from the first open
brace to the last close brace — including everything between, such as two
disjoint JSON objects — and hands that whole span to the JSON parser as
one candidate. -/
theorem C3_greedy_brace_span (pre mid post : List Char)
    (hpre : '{' ∉ pre) (hpost : '}' ∉ post)
    (h1 : loads (pre ++ '{' :: (mid ++ '}' :: post)) = none)
    (h2 : findFenced (pre ++ '{' :: (mid ++ '}' :: post)) = none) :
    findBraceSpan (pre ++ '{' :: (mid ++ '}' :: post)) = some ('{' :: (mid ++ ['}'])) ∧
    extract_json_scriptoll (String.mk (pre ++ '{' :: (mid ++ '}' :: post))) =
      (match loads ('{' :: (mid ++ ['}'])) with
       | some v => .ok v
       | none => .error extractErr) ∧
    extract_json_wer (String.mk (pre ++ '{' :: (mid ++ '}' :: post))) =
      (match loads ('{' :: (mid ++ ['}'])) with
       | some v => .ok v
       | none => .error extractErr) := by
  have hspan := findBraceSpan_split pre mid post hpre hpost
  exact ⟨hspan, extract_nofence_span (String.mk _) _ h1 h2 hspan,
    extract_nofence_span (String.mk _) _ h1 h2 hspan⟩

theorem C3_witness :
    ('{' ∉ ("A ").data) ∧ ('}' ∉ (" B").data) ∧
    findBraceSpan (("A ").data ++
        '{' :: (("\"a\": 1\x7d and \x7b\"b\": 2").data ++ '}' :: (" B").data)) =
      some ('{' :: (("\"a\": 1\x7d and \x7b\"b\": 2").data ++ ['}'])) ∧
    extract_json_wer (String.mk (("A ").data ++
        '{' :: (("\"a\": 1\x7d and \x7b\"b\": 2").data ++ '}' :: (" B").data))) =
      (match loads ('{' :: (("\"a\": 1\x7d and \x7b\"b\": 2").data ++ ['}'])) with
       | some v => .ok v
       | none => .error extractErr) := by
  have h := C3_greedy_brace_span ("A ").data ("\"a\": 1\x7d and \x7b\"b\": 2").data
    (" B").data (by decide) (by decide) rfl rfl
  exact ⟨by decide, by decide, h.1, h.2.2⟩

/-- **C4** (counterexample): on raw text with no recoverable JSON the
`wer.py` variant does NOT raise — `_extract_json` is character-for-character
identical in the two files, and both return the empty mapping. -/
theorem C4_counterexample :
    extract_json_wer ("sorry, I cannot help") = .ok (Json.obj .nil) ∧
    extract_json_wer ("sorry, I cannot help") ≠ .error extractErr ∧
    extract_json_scriptoll ("sorry, I cannot help") = .ok (Json.obj .nil) := by
  refine ⟨rfl, ?_, rfl⟩
  intro h
  exact Except.noConfusion h

/-- **C4** (amended): when no JSON is recoverable (direct parse fails, no
fenced block, no brace span), BOTH variants return the empty mapping; the
extraction error is raised only when a located candidate fails to parse. -/
theorem C4_amended_both_return_empty (raw : String) (h1 : loads raw.data = none)
    (h2 : findFenced raw.data = none) (h3 : findBraceSpan raw.data = none) :
    extract_json_scriptoll raw = .ok (Json.obj .nil) ∧
    extract_json_wer raw = .ok (Json.obj .nil) :=
  ⟨extract_nothing raw h1 h2 h3, extract_nothing raw h1 h2 h3⟩

theorem C4_witness :
    loads ("sorry, I cannot help").data = none ∧
    findFenced ("sorry, I cannot help").data = none ∧
    findBraceSpan ("sorry, I cannot help").data = none ∧
    extract_json_scriptoll ("sorry, I cannot help") = .ok (Json.obj .nil) ∧
    extract_json_wer ("sorry, I cannot help") = .ok (Json.obj .nil) := by
  have h := C4_amended_both_return_empty ("sorry, I cannot help") rfl rfl rfl
  exact ⟨rfl, rfl, rfl, h.1, h.2⟩

/-- **C5.** On the exact raw text of the spec example — prose, a ```json
fenced block containing an object, the closing fence and trailing prose —
extraction returns exactly that mapping, in both variants. -/
theorem C5_fenced_block_example :
    extract_json_scriptoll
        ("Here is the result:\n```json\n\x7b\"topic\":\"x\",\"audio_script\":[],\"visual_script\":[]\x7d\n```\nThanks") =
      .ok (Json.obj (jobj [("topic", .str "x"), ("audio_script", .arr .nil),
        ("visual_script", .arr .nil)])) ∧
    extract_json_wer
        ("Here is the result:\n```json\n\x7b\"topic\":\"x\",\"audio_script\":[],\"visual_script\":[]\x7d\n```\nThanks") =
      .ok (Json.obj (jobj [("topic", .str "x"), ("audio_script", .arr .nil),
        ("visual_script", .arr .nil)])) :=
  ⟨rfl, rfl⟩

/-- **C6.** The validator raises naming the first missing section, missing
field, or out-of-range value, and stops at that first failure: a missing
section names that section (audio first when both are missing); a missing
`emotion` field names `emotion` even when the same item also has a bad
speed; `speed = 1.2` triggers the 0.9-1.1 message; `guidance_scale` out of
`[11.0, 14.0]` triggers the guidance-scale message. -/
theorem C6_validator_error_messages :
    validate_script (Json.obj (jobj [("visual_script", Json.arr .nil)])) =
      .error (.valueError "Missing section: audio_script") ∧
    validate_script (Json.obj (jobj [("audio_script", Json.arr .nil)])) =
      .error (.valueError "Missing section: visual_script") ∧
    validate_script (Json.obj .nil) =
      .error (.valueError "Missing section: audio_script") ∧
    validate_script (Json.obj (jobj [("audio_script", Json.arr (jarr [Json.obj (jobj
        [("timestamp", .str "00:00"), ("text", .str "t"), ("speaker", .str "default"),
         ("speed", .num 10 1), ("pitch", .num 10 1)])])),
        ("visual_script", Json.arr .nil)])) =
      .error (.valueError ("Missing field \x27emotion\x27 in audio_script")) ∧
    validate_script (Json.obj (jobj [("audio_script", Json.arr (jarr [Json.obj (jobj
        [("timestamp", .str "00:00"), ("text", .str "t"), ("speaker", .str "default"),
         ("speed", .num 12 1), ("pitch", .num 10 1)])])),
        ("visual_script", Json.arr .nil)])) =
      .error (.valueError ("Missing field \x27emotion\x27 in audio_script")) ∧
    validate_script (Json.obj (jobj [("audio_script", Json.arr (jarr [Json.obj (jobj
        [("timestamp", .str "00:00"), ("text", .str "t"), ("speaker", .str "default"),
         ("speed", .num 12 1), ("pitch", .num 10 1), ("emotion", .str "neutral")])])),
        ("visual_script", Json.arr .nil)])) =
      .error (.valueError "Speed must be between 0.9-1.1") ∧
    validate_script (Json.obj (jobj [("audio_script", Json.arr .nil),
        ("visual_script", Json.arr (jarr [Json.obj (jobj
        [("timestamp", .str "00:00"), ("prompt", .str "p"),
         ("negative_prompt", .str "n"), ("style", .str "realistic"),
         ("guidance_scale", .num 150 1), ("steps", .num 50 0),
         ("seed", .num 123456 0), ("width", .num 1024 0),
         ("height", .num 576 0)])]))])) =
      .error (.valueError "Guidance scale must be 11.0-14.0") ∧
    validate_script (Json.obj (jobj [("audio_script", Json.arr .nil),
        ("visual_script", Json.arr (jarr [Json.obj (jobj
        [("timestamp", .str "00:00"), ("prompt", .str "p"),
         ("negative_prompt", .str "n"), ("style", .str "realistic"),
         ("guidance_scale", .num 105 1), ("steps", .num 50 0),
         ("seed", .num 123456 0), ("width", .num 1024 0),
         ("height", .num 576 0)])]))])) =
      .error (.valueError "Guidance scale must be 11.0-14.0") :=
  ⟨rfl, rfl, rfl, rfl, rfl, rfl, rfl, rfl⟩

/-- **C7.** The validator returns `True` on every mapping that has both
sections, where every audio item carries the six audio fields with speed
in `[0.9, 1.1]` and every visual item carries the nine visual fields with
guidance scale in `[11.0, 14.0]`. -/
theorem C7_validator_accepts_wellformed (s : Json) (h : wellFormedScriptB s = true) :
    validate_script s = .ok true :=
  (validate_ok_iff s (wellFormed_shape s h)).mpr h

theorem C7_witness :
    wellFormedScriptB (Json.obj (jobj [("topic", .str "T"),
      ("audio_script", Json.arr (jarr [Json.obj (jobj
        [("timestamp", .str "00:00"), ("text", .str "t"), ("speaker", .str "default"),
         ("speed", .num 10 1), ("pitch", .num 10 1), ("emotion", .str "neutral")])])),
      ("visual_script", Json.arr (jarr [Json.obj (jobj
        [("timestamp", .str "00:00"), ("prompt", .str "p"),
         ("negative_prompt", .str "n"), ("style", .str "realistic"),
         ("guidance_scale", .num 120 1), ("steps", .num 50 0),
         ("seed", .num 123456 0), ("width", .num 1024 0),
         ("height", .num 576 0)])]))])) = true ∧
    validate_script (Json.obj (jobj [("topic", .str "T"),
      ("audio_script", Json.arr (jarr [Json.obj (jobj
        [("timestamp", .str "00:00"), ("text", .str "t"), ("speaker", .str "default"),
         ("speed", .num 10 1), ("pitch", .num 10 1), ("emotion", .str "neutral")])])),
      ("visual_script", Json.arr (jarr [Json.obj (jobj
        [("timestamp", .str "00:00"), ("prompt", .str "p"),
         ("negative_prompt", .str "n"), ("style", .str "realistic"),
         ("guidance_scale", .num 120 1), ("steps", .num 50 0),
         ("seed", .num 123456 0), ("width", .num 1024 0),
         ("height", .num 576 0)])]))])) = .ok true :=
  ⟨rfl, C7_validator_accepts_wellformed _ rfl⟩

/-- **C8.** Both variants' `generate_script` prompts contain the text
`At least <duration // 5> segments`, the requested segment count computed
as floor division by five; with `duration = 10` the prompt requests at
least 2 segments. -/
theorem C8_prompt_segment_count (topic : String) (duration : Nat)
    (kp : Option (List String)) (h : 0 < duration) :
    (∃ pre post, promptScriptoll topic duration kp =
      pre ++ ("At least " ++ toString (duration / 5) ++ " segments") ++ post) ∧
    (∃ pre post, promptWer topic duration kp =
      pre ++ ("At least " ++ toString (duration / 5) ++ " segments") ++ post) := by
  constructor
  · refine ⟨"Generate a " ++ toString duration ++ "-second video script about: " ++
      topic ++ "\n        Key Points: " ++ keyPointsStr kp ++ "\n        - ",
      " (5-second intervals)\n        - Engaging and scientifically accurate narration\n        - Cinematic visuals with detailed prompts", ?_⟩
    simp only [promptScriptoll, String.append_assoc]
    rw [← String.append_assoc ("\n        - ") ("At least ")]
    rfl
  · refine ⟨"Generate a " ++ toString duration ++ "-second video script about: " ++
      topic ++ "\n        Key Points: " ++ keyPointsStr kp ++
      "\n        Requirements:\n        - ",
      " (5-second intervals)\n        - Scientific accuracy with engaging delivery\n        - Cinematic visual descriptions\n        - Detailed negative prompts\n        - Seed continuity for visual elements", ?_⟩
    simp only [promptWer, String.append_assoc]
    rw [← String.append_assoc ("\n        Requirements:\n        - ") ("At least ")]
    rfl

theorem C8_witness :
    0 < 10 ∧
    (∃ pre post, promptScriptoll ("X") 10 none = pre ++ ("At least 2 segments") ++ post) ∧
    (∃ pre post, promptWer ("X") 10 none = pre ++ ("At least 2 segments") ++ post) := by
  have h := C8_prompt_segment_count ("X") 10 none (by decide)
  have he : ("At least " ++ toString (10 / 5 : Nat) ++ " segments" : String) =
      "At least 2 segments" := rfl
  rw [he] at h
  exact ⟨by decide, h.1, h.2⟩

/-- **C9.** The direct-parse step never checks that its result is a
mapping: any raw text that `json.loads` accepts — array, string, number —
is returned unchanged by `_extract_json` in both variants, despite the
declared `Dict` result type. -/
theorem C9_direct_parse_any_value (raw : String) (v : Json)
    (h : loads raw.data = some v) :
    extract_json_scriptoll raw = .ok v ∧ extract_json_wer raw = .ok v :=
  ⟨extract_direct raw v h, extract_direct raw v h⟩

theorem C9_witness :
    loads ("[1, 2]").data =
      some (Json.arr (jarr [Json.num 1 0, Json.num 2 0])) ∧
    extract_json_scriptoll ("[1, 2]") =
      .ok (Json.arr (jarr [Json.num 1 0, Json.num 2 0])) ∧
    extract_json_wer ("[1, 2]") =
      .ok (Json.arr (jarr [Json.num 1 0, Json.num 2 0])) := by
  have h : loads ("[1, 2]").data =
      some (Json.arr (jarr [Json.num 1 0, Json.num 2 0])) := rfl
  exact ⟨h, (C9_direct_parse_any_value _ _ h).1, (C9_direct_parse_any_value _ _ h).2⟩

/-- **C10.** The validator accepts a mapping whose two sections are empty
lists, and on dict-of-lists-of-dicts shaped scripts it accepts EXACTLY the
spec condition: only section presence, field presence, the speed range and
the guidance-scale range are enforced — no `topic` key, no `pitch`,
`steps`, `seed`, `width` or `height` ranges, and extra keys are ignored. -/
theorem C10_validator_scope :
    validate_script (Json.obj (jobj [("audio_script", Json.arr .nil),
      ("visual_script", Json.arr .nil)])) = .ok true ∧
    (∀ s : Json, scriptShapeB s = true →
      (validate_script s = .ok true ↔ wellFormedScriptB s = true)) :=
  ⟨rfl, fun s h => validate_ok_iff s h⟩

theorem C10_witness :
    scriptShapeB (Json.obj (jobj [("topic", .str "T"),
      ("audio_script", Json.arr (jarr [Json.obj (jobj
        [("timestamp", .str "00:00"), ("text", .str "t"), ("speaker", .str "default"),
         ("speed", .num 10 1), ("pitch", .num 50 1), ("emotion", .str "neutral"),
         ("extra", .null)])])),
      ("visual_script", Json.arr (jarr [Json.obj (jobj
        [("timestamp", .str "00:00"), ("prompt", .str "p"),
         ("negative_prompt", .str "n"), ("style", .str "realistic"),
         ("guidance_scale", .num 120 1), ("steps", .num 0 0),
         ("seed", .num (-1) 0), ("width", .num 0 0),
         ("height", .num 0 0)])]))])) = true ∧
    (validate_script (Json.obj (jobj [("topic", .str "T"),
      ("audio_script", Json.arr (jarr [Json.obj (jobj
        [("timestamp", .str "00:00"), ("text", .str "t"), ("speaker", .str "default"),
         ("speed", .num 10 1), ("pitch", .num 50 1), ("emotion", .str "neutral"),
         ("extra", .null)])])),
      ("visual_script", Json.arr (jarr [Json.obj (jobj
        [("timestamp", .str "00:00"), ("prompt", .str "p"),
         ("negative_prompt", .str "n"), ("style", .str "realistic"),
         ("guidance_scale", .num 120 1), ("steps", .num 0 0),
         ("seed", .num (-1) 0), ("width", .num 0 0),
         ("height", .num 0 0)])]))])) = .ok true ↔
     wellFormedScriptB (Json.obj (jobj [("topic", .str "T"),
      ("audio_script", Json.arr (jarr [Json.obj (jobj
        [("timestamp", .str "00:00"), ("text", .str "t"), ("speaker", .str "default"),
         ("speed", .num 10 1), ("pitch", .num 50 1), ("emotion", .str "neutral"),
         ("extra", .null)])])),
      ("visual_script", Json.arr (jarr [Json.obj (jobj
        [("timestamp", .str "00:00"), ("prompt", .str "p"),
         ("negative_prompt", .str "n"), ("style", .str "realistic"),
         ("guidance_scale", .num 120 1), ("steps", .num 0 0),
         ("seed", .num (-1) 0), ("width", .num 0 0),
         ("height", .num 0 0)])]))])) = true) := by
  refine ⟨rfl, C10_validator_scope.2 _ rfl⟩
